import Mathlib

/-! zfs-win: the object-set resolver (`src/zfs-win/ObjectSet.cpp`)

A shallow embedding of `ZFS::ObjectSet` and theorems about it.

Conventions of the embedding

* `uint64_t` quantities are natural numbers; arithmetic the source performs in
  64 bits is reduced with `u64`.
* The three overloads of `ObjectSet::Read` are `ObjectSet.Read_dnode`
  (the specification's `ReadRecord`), `ObjectSet.Read_zap` (`ResolveObject`)
  and `ObjectSet.Read_nvl` (`ReadBlob`).
* The collaborators whose code is outside `ObjectSet.cpp` (`Pool`,
  `BlockReader`, `ZapObject`, `NameValueList`, the layout of `dnode_phys_t`)
  are the fields of `Env`.  They are pure functions: the pool is a read-only
  snapshot.
* Every operation returns, next to its C++ result, the object set after the
  call and the list of calls it made on its collaborators (`Event`), in order.
* `ASSERT` is a debug-build diagnostic and has no effect on the result; it is
  not modelled.
* Dereferencing a null `m_reader`, a null `ZapObject*` or reading a local that
  was never written is undefined behaviour: the operation returns `none`.
-/

namespace ZFS

/-! ## Machine integers -/

/-- Reduction of a natural number to an unsigned 64-bit value. -/
def u64 (x : Nat) : Nat := x % 2 ^ 64

/-- The value of `(uint64_t)-1`, returned by `GetIndex` as "not found". -/
def UINT64_MAX : Nat := 2 ^ 64 - 1

/-! ## `dmu_object_type`

The enumeration is declared in a header that is not part of the sources.  The
enumerators carry the values of the ZFS on-disk format, in declaration order
starting at zero. -/

def DMU_OT_NONE : Nat := 0
def DMU_OT_OBJECT_DIRECTORY : Nat := 1
def DMU_OT_OBJECT_ARRAY : Nat := 2
def DMU_OT_PACKED_NVLIST : Nat := 3
def DMU_OT_PACKED_NVLIST_SIZE : Nat := 4
def DMU_OT_BPLIST : Nat := 5
def DMU_OT_BPLIST_HDR : Nat := 6
def DMU_OT_SPACE_MAP_HEADER : Nat := 7
def DMU_OT_SPACE_MAP : Nat := 8
def DMU_OT_INTENT_LOG : Nat := 9
def DMU_OT_DNODE : Nat := 10
def DMU_OT_OBJSET : Nat := 11
def DMU_OT_DSL_DIR : Nat := 12
def DMU_OT_DSL_DIR_CHILD_MAP : Nat := 13
def DMU_OT_DSL_DS_SNAP_MAP : Nat := 14
def DMU_OT_DSL_PROPS : Nat := 15
def DMU_OT_DSL_DATASET : Nat := 16
def DMU_OT_ZNODE : Nat := 17
def DMU_OT_OLDACL : Nat := 18
def DMU_OT_PLAIN_FILE_CONTENTS : Nat := 19
def DMU_OT_DIRECTORY_CONTENTS : Nat := 20
def DMU_OT_MASTER_NODE : Nat := 21
def DMU_OT_UNLINKED_SET : Nat := 22
def DMU_OT_ZVOL : Nat := 23
def DMU_OT_ZVOL_PROP : Nat := 24
def DMU_OT_PLAIN_OTHER : Nat := 25
def DMU_OT_UINT64_OTHER : Nat := 26
def DMU_OT_ZAP_OTHER : Nat := 27
def DMU_OT_ERROR_LOG : Nat := 28
def DMU_OT_SPA_HISTORY : Nat := 29
def DMU_OT_SPA_HISTORY_OFFSETS : Nat := 30
def DMU_OT_POOL_PROPS : Nat := 31
def DMU_OT_DSL_PERMS : Nat := 32
def DMU_OT_ACL : Nat := 33
def DMU_OT_SYSACL : Nat := 34
def DMU_OT_FUID : Nat := 35
def DMU_OT_FUID_SIZE : Nat := 36
def DMU_OT_NEXT_CLONES : Nat := 37
def DMU_OT_SCRUB_QUEUE : Nat := 38
def DMU_OT_USERGROUP_USED : Nat := 39
def DMU_OT_USERGROUP_QUOTA : Nat := 40
def DMU_OT_USERREFS : Nat := 41
def DMU_OT_DDT_ZAP : Nat := 42
def DMU_OT_DDT_STATS : Nat := 43

/-! ## On-disk structures -/

/-- A record (`dnode_phys_t`).  The source reads two of its fields: the type
tag `type` and the first spare word `pad3[0]`.  All other bytes of the record
are kept as one uninterpreted number `body` (zero when they are all zero). -/
structure dnode_phys_t where
  type : Nat
  pad3_0 : Nat
  body : Nat
deriving DecidableEq, Repr

/-- A block pointer (`blkptr_t`): the two fields `Init` asserts on, and the
rest of the pointer as one uninterpreted number. -/
structure blkptr_t where
  type : Nat
  lvl : Nat
  body : Nat
deriving DecidableEq, Repr

/-- The object-set header (`objset_phys_t`): the embedded metadata record and
the reserved remainder. -/
structure objset_phys_t where
  meta_dnode : dnode_phys_t
  body : Nat
deriving DecidableEq, Repr

/-- The header `memset(&m_objset, 0, sizeof(m_objset))` leaves behind. -/
def objset_phys_t.zero : objset_phys_t := ⟨⟨0, 0, 0⟩, 0⟩

/-! ## Collaborators -/

/-- A heap-allocated `ZapObject`: the address `new` returned for it and the
name-to-integer entries its `Init` decoded.  The object is never modified after
`Init`, so the pointer and the pointee are kept together. -/
structure ZapObject where
  addr : Nat
  entries : List (String × Nat)
deriving DecidableEq, Repr

/-- Call `ZapObject::Lookup(name, index)`: `none` when it returns false, otherwise
the value stored into `index`. -/
def ZapObject.Lookup (z : ZapObject) (name : String) : Option Nat :=
  z.entries.lookup name

/-- A decoded key/value collection (`NameValueList`), uninterpreted. -/
structure NameValueList where
  pairs : List (String × Nat)
deriving DecidableEq, Repr

/-- The platform and the collaborators of `ObjectSet`. -/
structure Env where
  /-- The value of `sizeof(dnode_phys_t)`, the record stride. -/
  sizeof_dnode : Nat
  /-- The width of `size_t` in bits. -/
  size_t_bits : Nat
  /-- Call `Pool::Read(buff, sizeof(m_objset), bp)`: `none` when it returns false,
  otherwise the header it stored in `buff`. -/
  pool_read : blkptr_t → Option objset_phys_t
  /-- Call `BlockReader(pool, src).GetDataSize()`. -/
  GetDataSize : dnode_phys_t → Nat
  /-- Call `BlockReader(pool, src).Read(dst, size, offset)`: the number of bytes
  read and the bytes the destination holds afterwards. -/
  Read : dnode_phys_t → Nat → Nat → Nat × List Nat
  /-- The record a `dnode_phys_t` buffer holding the given bytes denotes. -/
  as_dnode : List Nat → dnode_phys_t
  /-- Call `ZapObject::Init(&dn)`: its result and the entries the object holds
  afterwards. -/
  ZapInit : dnode_phys_t → Bool × List (String × Nat)
  /-- Call `NameValueList::Init(buff, size)`: its result and the list afterwards. -/
  NvlInit : List Nat → Nat → Bool × NameValueList

/-- A call made on a collaborator. -/
inductive Event where
  | pool_read (bp : blkptr_t)
  | reader_new (src : dnode_phys_t)
  | reader_delete (src : dnode_phys_t)
  | get_data_size (src : dnode_phys_t)
  | read_at (src : dnode_phys_t) (size offset : Nat)
  | zap_new (addr : Nat)
  | zap_init (addr : Nat) (dn : dnode_phys_t)
  | zap_delete (addr : Nat)
  | zap_lookup (addr : Nat) (name : String)
  | nvl_init (buff : List Nat) (size : Nat)
  | printf (type : Nat)
deriving DecidableEq, Repr

/-! ## `std::map<uint64_t, V>` as a key-ordered association list -/

/-- Lookup `m.find(k)`: `none` for `m.end()`, otherwise the mapped value. -/
def map_find {V : Type} : List (Nat × V) → Nat → Option V
  | [], _ => none
  | (k1, v1) :: m, k => if k1 = k then some v1 else map_find m k

/-- Assignment `m[k] = v`: assigns to the entry for `k`, inserting it in key order when
there is none. -/
def map_set {V : Type} : List (Nat × V) → Nat → V → List (Nat × V)
  | [], k, v => [(k, v)]
  | (k1, v1) :: m, k, v =>
    if k < k1 then (k, v) :: (k1, v1) :: m
    else if k = k1 then (k, v) :: m
    else (k1, v1) :: map_set m k v

/-! ## The object set -/

/-- The data members of `ZFS::ObjectSet`.  `m_reader` is `none` for `NULL` and
otherwise the record the `BlockReader` was constructed over. -/
structure ObjectSet where
  m_objset : objset_phys_t
  m_objdir : List (Nat × ZapObject)
  m_cache : List (Nat × dnode_phys_t)
  m_reader : Option dnode_phys_t
  m_count : Nat
deriving DecidableEq, Repr

/-- What a member function leaves behind: its result (return value and
out-parameters), the object set after the call, and the calls it made. -/
structure Outcome (α : Type) where
  ret : α
  s : ObjectSet
  trace : List Event
deriving DecidableEq, Repr

namespace ObjectSet

/-- Constructor `ObjectSet::ObjectSet(Pool*)`.  The constructor does not initialise
`m_objset`; its indeterminate contents are the argument. -/
def new (objset : objset_phys_t) : ObjectSet :=
  { m_objset := objset, m_objdir := [], m_cache := [], m_reader := none, m_count := 0 }

/-- Member `ObjectSet::RemoveAll`. -/
def RemoveAll (s : ObjectSet) : Outcome Unit :=
  { ret := ()
    s := { s with m_objdir := [], m_cache := [], m_reader := none, m_count := 0 }
    trace := s.m_objdir.map (fun e => Event.zap_delete e.2.addr) ++
      (match s.m_reader with
       | none => []
       | some src => [Event.reader_delete src]) }

/-- The contents of `m_objset` after the header read of `Init`: the header the
pool returned (`memcpy`), or zeroes when `Pool::Read` failed (`memset`). -/
def read_header (env : Env) (bp : blkptr_t) : objset_phys_t :=
  match env.pool_read bp with
  | some h => h
  | none => objset_phys_t.zero

/-- Member `ObjectSet::Init`. -/
def Init (env : Env) (s : ObjectSet) (bp : blkptr_t) : Outcome Bool :=
  let r0 := RemoveAll s
  let hdr : objset_phys_t := read_header env bp
  let s1 : ObjectSet := { r0.s with m_objset := hdr }
  let t1 := r0.trace ++ [Event.pool_read bp]
  if hdr.meta_dnode.type ≠ DMU_OT_DNODE then
    { ret := false, s := s1, trace := t1 }
  else
    { ret := true
      s := { s1 with
        m_reader := some hdr.meta_dnode
        m_count := u64 (env.GetDataSize hdr.meta_dnode) / env.sizeof_dnode }
      trace := t1 ++ [Event.reader_new hdr.meta_dnode, Event.get_data_size hdr.meta_dnode] }

/-- Member `ObjectSet::Read(uint64_t index, dnode_phys_t* dn, dmu_object_type type)`,
the specification's `ReadRecord`.  `dn_null` says whether `dn == NULL`.  The
result is the returned flag and what the call stored in `*dn` (`none` when it
stored nothing). -/
def Read_dnode (env : Env) (s : ObjectSet) (index : Nat) (dn_null : Bool) (type : Nat) :
    Option (Outcome (Bool × Option dnode_phys_t)) :=
  if index ≥ s.m_count ∨ dn_null = true then
    some { ret := (false, none), s := s, trace := [] }
  else
    match map_find s.m_cache index with
    | none =>
      match s.m_reader with
      | none => none
      | some src =>
        let size := env.sizeof_dnode
        let offset := u64 (index * size)
        let r := env.Read src size offset
        if r.1 ≠ size then
          some { ret := (false, some (env.as_dnode r.2)), s := s,
                 trace := [Event.read_at src size offset] }
        else
          let dn : dnode_phys_t := { env.as_dnode r.2 with pad3_0 := u64 index }
          let s1 : ObjectSet :=
            if dn.type ≠ DMU_OT_PLAIN_FILE_CONTENTS then
              { s with m_cache := map_set s.m_cache index dn }
            else s
          some { ret := (decide (type = DMU_OT_NONE) || decide (dn.type = type), some dn),
                 s := s1, trace := [Event.read_at src size offset] }
    | some c =>
      some { ret := (decide (type = DMU_OT_NONE) || decide (c.type = type), some c),
             s := s, trace := [] }

/-- The `switch` of `Read(uint64_t, ZapObject**, dmu_object_type)`: true on the
cases that `break`, false on `default`. -/
def is_zap_type (t : Nat) : Bool :=
  decide (t = DMU_OT_OBJECT_DIRECTORY) ||
  decide (t = DMU_OT_DSL_DIR_CHILD_MAP) ||
  decide (t = DMU_OT_DSL_DS_SNAP_MAP) ||
  decide (t = DMU_OT_DSL_PROPS) ||
  decide (t = DMU_OT_DIRECTORY_CONTENTS) ||
  decide (t = DMU_OT_MASTER_NODE) ||
  decide (t = DMU_OT_UNLINKED_SET) ||
  decide (t = DMU_OT_ZVOL_PROP) ||
  decide (t = DMU_OT_ZAP_OTHER) ||
  decide (t = DMU_OT_ERROR_LOG) ||
  decide (t = DMU_OT_POOL_PROPS) ||
  decide (t = DMU_OT_DSL_PERMS) ||
  decide (t = DMU_OT_NEXT_CLONES) ||
  decide (t = DMU_OT_SCRUB_QUEUE) ||
  decide (t = DMU_OT_USERGROUP_USED) ||
  decide (t = DMU_OT_USERGROUP_QUOTA) ||
  decide (t = DMU_OT_USERREFS) ||
  decide (t = DMU_OT_DDT_ZAP) ||
  decide (t = DMU_OT_DDT_STATS)

/-- Member `ObjectSet::Read(uint64_t index, ZapObject** zap, dmu_object_type type)`,
the specification's `ResolveObject`.  `addr` is the address `new ZapObject`
returns when the call reaches it.  The result is the returned flag and what the
call stored in `*zap` (`none` when it stored nothing; after a failed
`ZapObject::Init` the stored pointer is dangling, the trace records the
`delete`). -/
def Read_zap (env : Env) (s : ObjectSet) (index : Nat) (type : Nat) (addr : Nat) :
    Option (Outcome (Bool × Option ZapObject)) :=
  match map_find s.m_objdir index with
  | none =>
    match Read_dnode env s index false type with
    | none => none
    | some r =>
      if r.ret.1 = false then
        some { ret := (false, none), s := r.s, trace := r.trace }
      else
        match r.ret.2 with
        | none => none
        | some dn =>
          if is_zap_type dn.type = false then
            some { ret := (false, none), s := r.s, trace := r.trace ++ [Event.printf dn.type] }
          else
            let i := env.ZapInit dn
            let zap : ZapObject := { addr := addr, entries := i.2 }
            let t := r.trace ++ [Event.zap_new addr, Event.zap_init addr dn]
            if i.1 = false then
              some { ret := (false, some zap), s := r.s, trace := t ++ [Event.zap_delete addr] }
            else
              some { ret := (true, some zap)
                     s := { r.s with m_objdir := map_set r.s.m_objdir index zap }
                     trace := t }
  | some z =>
    some { ret := (true, some z), s := s, trace := [] }

/-- Member `ObjectSet::GetIndex`.  The call `Read(parent_index, &zap)` omits the
expected type; the default argument of the declaration is `DMU_OT_NONE`. -/
def GetIndex (env : Env) (s : ObjectSet) (name : String) (parent_index : Nat) (addr : Nat) :
    Option (Outcome Nat) :=
  match Read_zap env s parent_index DMU_OT_NONE addr with
  | none => none
  | some r =>
    if r.ret.1 = false then
      some { ret := UINT64_MAX, s := r.s, trace := r.trace }
    else
      match r.ret.2 with
      | none => none
      | some zap =>
        let t := r.trace ++ [Event.zap_lookup zap.addr name]
        match zap.Lookup name with
        | none => some { ret := UINT64_MAX, s := r.s, trace := t }
        | some index => some { ret := index, s := r.s, trace := t }

/-- Member `ObjectSet::Read(uint64_t index, NameValueList& nvl)`, the specification's
`ReadBlob`.  The result is the returned flag and the contents of `nvl` after
the call. -/
def Read_nvl (env : Env) (s : ObjectSet) (index : Nat) (nvl : NameValueList) :
    Option (Outcome (Bool × NameValueList)) :=
  match Read_dnode env s index false DMU_OT_PACKED_NVLIST with
  | none => none
  | some r0 =>
    if r0.ret.1 = false then
      some { ret := (false, nvl), s := r0.s, trace := r0.trace }
    else
      match r0.ret.2 with
      | none => none
      | some dn =>
        let size := u64 (env.GetDataSize dn) % 2 ^ env.size_t_bits
        let r := env.Read dn size 0
        let t := r0.trace ++
          [Event.reader_new dn, Event.get_data_size dn, Event.read_at dn size 0]
        if r.1 ≠ size then
          some { ret := (false, nvl), s := r0.s, trace := t ++ [Event.reader_delete dn] }
        else
          let i := env.NvlInit r.2 size
          some { ret := (i.1, i.2), s := r0.s,
                 trace := t ++ [Event.nvl_init r.2 size, Event.reader_delete dn] }

end ObjectSet

/-! ## Reachable object sets -/

/-- The object sets a caller can produce: a newly constructed one, and what
`Init`, `Read` (all three overloads) and `GetIndex` leave behind when called on
one. -/
inductive Reachable (env : Env) : ObjectSet → Prop
  | new (objset : objset_phys_t) : Reachable env (ObjectSet.new objset)
  | Init {s : ObjectSet} (bp : blkptr_t) :
      Reachable env s → Reachable env (ObjectSet.Init env s bp).s
  | Read_dnode {s : ObjectSet} {r : Outcome (Bool × Option dnode_phys_t)}
      (index : Nat) (dn_null : Bool) (type : Nat) :
      Reachable env s → ObjectSet.Read_dnode env s index dn_null type = some r →
      Reachable env r.s
  | Read_zap {s : ObjectSet} {r : Outcome (Bool × Option ZapObject)}
      (index : Nat) (type : Nat) (addr : Nat) :
      Reachable env s → ObjectSet.Read_zap env s index type addr = some r →
      Reachable env r.s
  | GetIndex {s : ObjectSet} {r : Outcome Nat}
      (name : String) (parent_index : Nat) (addr : Nat) :
      Reachable env s → ObjectSet.GetIndex env s name parent_index addr = some r →
      Reachable env r.s
  | Read_nvl {s : ObjectSet} {r : Outcome (Bool × NameValueList)}
      (index : Nat) (nvl : NameValueList) :
      Reachable env s → ObjectSet.Read_nvl env s index nvl = some r →
      Reachable env r.s

/-- The record `Read_dnode` stores for `index` after a full read through the
reader over `src`: the bytes read, viewed as a record, with `pad3[0]` set. -/
def stamped (env : Env) (src : dnode_phys_t) (index : Nat) : dnode_phys_t :=
  { env.as_dnode (env.Read src env.sizeof_dnode (u64 (index * env.sizeof_dnode))).2 with
    pad3_0 := u64 index }

/-- The reader over `src` returns record `index` in full. -/
def full_read (env : Env) (src : dnode_phys_t) (index : Nat) : Prop :=
  (env.Read src env.sizeof_dnode (u64 (index * env.sizeof_dnode))).1 = env.sizeof_dnode

instance (env : Env) (src : dnode_phys_t) (index : Nat) : Decidable (full_read env src index) := by
  unfold full_read; exact inferInstance

/-- The state `Read_dnode` leaves after a full read of record `index`. -/
def ObjectSet.cached (env : Env) (s : ObjectSet) (src : dnode_phys_t) (index : Nat) :
    ObjectSet :=
  if (stamped env src index).type ≠ DMU_OT_PLAIN_FILE_CONTENTS then
    { s with m_cache := map_set s.m_cache index (stamped env src index) }
  else s

/-- The invariant of the record table: `m_count` is zero without a reader and
the truncated quotient of the reader's size by the record stride with one; every
entry of `m_cache` lies below `m_count`, is not plain file contents, and is the
record the reader returns in full for its key, with `pad3[0]` set to the key. -/
def RecordInv (env : Env) (s : ObjectSet) : Prop :=
  (s.m_reader = none → s.m_count = 0) ∧
  (∀ src, s.m_reader = some src →
    s.m_count = u64 (env.GetDataSize src) / env.sizeof_dnode) ∧
  (∀ e ∈ s.m_cache, e.1 < s.m_count ∧ e.2.type ≠ DMU_OT_PLAIN_FILE_CONTENTS ∧
    ∃ src, s.m_reader = some src ∧ full_read env src e.1 ∧ e.2 = stamped env src e.1)

/-- The caches of `t` hold every entry the caches of `s` hold, under the same
key and with the same value, and `m_count` and `m_reader` are those of `s`. -/
def Keeps (s t : ObjectSet) : Prop :=
  (∀ k v, map_find s.m_cache k = some v → map_find t.m_cache k = some v) ∧
  (∀ k z, map_find s.m_objdir k = some z → map_find t.m_objdir k = some z) ∧
  t.m_count = s.m_count ∧ t.m_reader = s.m_reader

/-- The object sets reached from `s` by queries alone: any sequence of calls of
the three `Read` overloads and `GetIndex`, without `Init`. -/
inductive Queried (env : Env) (s : ObjectSet) : ObjectSet → Prop
  | refl : Queried env s s
  | Read_dnode {t : ObjectSet} {r : Outcome (Bool × Option dnode_phys_t)}
      (index : Nat) (dn_null : Bool) (type : Nat) :
      Queried env s t → ObjectSet.Read_dnode env t index dn_null type = some r →
      Queried env s r.s
  | Read_zap {t : ObjectSet} {r : Outcome (Bool × Option ZapObject)}
      (index : Nat) (type : Nat) (addr : Nat) :
      Queried env s t → ObjectSet.Read_zap env t index type addr = some r →
      Queried env s r.s
  | GetIndex {t : ObjectSet} {r : Outcome Nat}
      (name : String) (parent_index : Nat) (addr : Nat) :
      Queried env s t → ObjectSet.GetIndex env t name parent_index addr = some r →
      Queried env s r.s
  | Read_nvl {t : ObjectSet} {r : Outcome (Bool × NameValueList)}
      (index : Nat) (nvl : NameValueList) :
      Queried env s t → ObjectSet.Read_nvl env t index nvl = some r →
      Queried env s r.s

/-- The invariant of `m_objdir`: every key lies below `m_count` and has an
entry in `m_cache` whose type the `switch` of `Read_zap` lets through. -/
def ObjdirInv (s : ObjectSet) : Prop :=
  ∀ e ∈ s.m_objdir, e.1 < s.m_count ∧
    ∃ d, map_find s.m_cache e.1 = some d ∧ ObjectSet.is_zap_type d.type = true

/-! ## A concrete pool

Eight records of 512 bytes.  Record 2 is plain file contents, record 3 a packed
key/value blob, record 5 an object directory holding `root_dataset -> 12`; the
other records are blobs as well. -/

namespace Demo

/-- The type tag of record `i` of the pool. -/
def tag (i : Nat) : Nat :=
  if i = 5 then DMU_OT_OBJECT_DIRECTORY
  else if i = 2 then DMU_OT_PLAIN_FILE_CONTENTS
  else DMU_OT_PACKED_NVLIST

/-- The pool and its decoders. -/
def env : Env :=
  { sizeof_dnode := 512
    size_t_bits := 64
    pool_read := fun _ => some ⟨⟨DMU_OT_DNODE, 0, 0⟩, 0⟩
    GetDataSize := fun _ => 4096
    Read := fun _ size offset => (size, [offset / 512])
    as_dnode := fun b => ⟨tag (b.headD 0), 0, b.headD 0⟩
    ZapInit := fun _ => (true, [("root_dataset", 12)])
    NvlInit := fun _ _ => (true, ⟨[]⟩) }

/-- The block pointer handed to `Init`. -/
def bp : blkptr_t := ⟨DMU_OT_OBJSET, 0, 0⟩

/-- The object set right after `Init`. -/
def s0 : ObjectSet := (ObjectSet.Init env (ObjectSet.new objset_phys_t.zero) bp).s

/-- The metadata record of the pool. -/
def meta_dnode : dnode_phys_t := ⟨DMU_OT_DNODE, 0, 0⟩

/-- The object directory of the pool, as `Read_zap` builds it at address 1000. -/
def root_zap : ZapObject := ⟨1000, [("root_dataset", 12)]⟩

/-- The object set after record 5 was resolved from `s0`. -/
def s5 : ObjectSet :=
  { s0 with
    m_objdir := [(5, root_zap)]
    m_cache := [(5, ⟨DMU_OT_OBJECT_DIRECTORY, 5, 5⟩)] }

/-- The outcome of resolving record 5 from `s0`. -/
def r5 : Outcome (Bool × Option ZapObject) :=
  { ret := (true, some root_zap)
    s := s5
    trace := [Event.read_at meta_dnode 512 2560, Event.zap_new 1000,
              Event.zap_init 1000 ⟨DMU_OT_OBJECT_DIRECTORY, 5, 5⟩] }

/-- The outcome of reading record 2 (plain file contents) from `s0`. -/
def r2 : Outcome (Bool × Option dnode_phys_t) :=
  { ret := (true, some ⟨DMU_OT_PLAIN_FILE_CONTENTS, 2, 2⟩)
    s := s0
    trace := [Event.read_at meta_dnode 512 1024] }

/-- The pool with a reader whose data ends in a trailing part of a record:
4100 bytes, eight whole records and four bytes more. -/
def env_tail : Env := { env with GetDataSize := fun _ => 4100 }

end Demo

/-! ## Lemmas on the maps -/

theorem map_find_map_set {V : Type} (m : List (Nat × V)) (k : Nat) (v : V) (j : Nat) :
    map_find (map_set m k v) j = if k = j then some v else map_find m j := by
  induction m with
  | nil => simp [map_set, map_find]
  | cons e m ih =>
    obtain ⟨k1, v1⟩ := e
    unfold map_set
    by_cases h1 : k < k1
    · simp only [h1, if_true]
      by_cases hj : k = j
      · simp [map_find, hj]
      · simp [map_find, hj]
    · simp only [h1, if_false]
      by_cases h2 : k = k1
      · subst h2
        simp only [if_true]
        by_cases hj : k = j
        · simp [map_find, hj]
        · simp [map_find, hj]
      · simp only [h2, if_false]
        by_cases hj : k = j
        · subst hj
          have : ¬ k1 = k := fun h => h2 h.symm
          simp [map_find, this, ih]
        · by_cases h3 : k1 = j
          · simp [map_find, h3, hj]
          · simp [map_find, h3, hj, ih]

theorem mem_map_set {V : Type} (m : List (Nat × V)) (k : Nat) (v : V) (e : Nat × V)
    (h : e ∈ map_set m k v) : e = (k, v) ∨ e ∈ m := by
  induction m with
  | nil => simpa [map_set] using h
  | cons e1 m ih =>
    obtain ⟨k1, v1⟩ := e1
    unfold map_set at h
    by_cases h1 : k < k1
    · simp only [h1, if_true] at h
      simpa using h
    · simp only [h1, if_false] at h
      by_cases h2 : k = k1
      · simp only [h2, if_true] at h
        rcases List.mem_cons.mp h with h | h
        · exact Or.inl (by rw [h, h2])
        · exact Or.inr (List.mem_cons_of_mem _ h)
      · simp only [h2, if_false] at h
        rcases List.mem_cons.mp h with h | h
        · exact Or.inr (by rw [h]; exact List.mem_cons_self _ _)
        · rcases ih h with h | h
          · exact Or.inl h
          · exact Or.inr (List.mem_cons_of_mem _ h)

theorem map_find_mem {V : Type} (m : List (Nat × V)) (k : Nat) (v : V)
    (h : map_find m k = some v) : (k, v) ∈ m := by
  induction m with
  | nil => simp [map_find] at h
  | cons e m ih =>
    obtain ⟨k1, v1⟩ := e
    unfold map_find at h
    by_cases h1 : k1 = k
    · simp only [h1, if_true, Option.some.injEq] at h
      rw [h1, h]; exact List.mem_cons_self _ _
    · simp only [h1, if_false] at h
      exact List.mem_cons_of_mem _ (ih h)

/-! ## Lemmas on `Read_dnode` -/

namespace ObjectSet

theorem Read_dnode_reject (env : Env) (s : ObjectSet) (index : Nat) (dn_null : Bool)
    (type : Nat) (h : index ≥ s.m_count ∨ dn_null = true) :
    Read_dnode env s index dn_null type = some { ret := (false, none), s := s, trace := [] } := by
  unfold Read_dnode
  rw [if_pos h]

theorem Read_dnode_hit (env : Env) (s : ObjectSet) (index : Nat) (type : Nat)
    (c : dnode_phys_t) (hidx : index < s.m_count) (hc : map_find s.m_cache index = some c) :
    Read_dnode env s index false type =
      some { ret := (decide (type = DMU_OT_NONE) || decide (c.type = type), some c),
             s := s, trace := [] } := by
  unfold Read_dnode
  have h : ¬ (index ≥ s.m_count ∨ false = true) := by simp; omega
  rw [if_neg h, hc]

theorem Read_dnode_null_reader (env : Env) (s : ObjectSet) (index : Nat) (type : Nat)
    (hidx : index < s.m_count) (hc : map_find s.m_cache index = none)
    (hr : s.m_reader = none) :
    Read_dnode env s index false type = none := by
  unfold Read_dnode
  have h : ¬ (index ≥ s.m_count ∨ false = true) := by simp; omega
  rw [if_neg h, hc, hr]

theorem Read_dnode_short (env : Env) (s : ObjectSet) (index : Nat) (type : Nat)
    (src : dnode_phys_t) (hidx : index < s.m_count) (hc : map_find s.m_cache index = none)
    (hr : s.m_reader = some src) (hf : ¬ full_read env src index) :
    Read_dnode env s index false type =
      some { ret := (false, some (env.as_dnode
                (env.Read src env.sizeof_dnode (u64 (index * env.sizeof_dnode))).2)),
             s := s,
             trace := [Event.read_at src env.sizeof_dnode (u64 (index * env.sizeof_dnode))] } := by
  unfold Read_dnode
  have h : ¬ (index ≥ s.m_count ∨ false = true) := by simp; omega
  rw [if_neg h, hc, hr]
  unfold full_read at hf
  dsimp only
  rw [if_pos hf]

theorem Read_dnode_full (env : Env) (s : ObjectSet) (index : Nat) (type : Nat)
    (src : dnode_phys_t) (hidx : index < s.m_count) (hc : map_find s.m_cache index = none)
    (hr : s.m_reader = some src) (hf : full_read env src index) :
    Read_dnode env s index false type =
      some { ret := (decide (type = DMU_OT_NONE) ||
                       decide ((stamped env src index).type = type),
                     some (stamped env src index)),
             s := cached env s src index,
             trace := [Event.read_at src env.sizeof_dnode (u64 (index * env.sizeof_dnode))] } := by
  obtain ⟨os, od, mc, mr, cnt⟩ := s
  dsimp only at hidx hc hr
  subst hr
  have h : ¬ (index ≥ cnt ∨ false = true) := by simp; omega
  unfold full_read at hf
  unfold Read_dnode
  dsimp only
  rw [if_neg h, hc]
  dsimp only
  rw [if_neg (not_not.mpr hf)]
  rfl

/-- The five ways a call of `Read_dnode` can go. -/
theorem Read_dnode_cases (env : Env) (s : ObjectSet) (index : Nat) (dn_null : Bool) (type : Nat)
    (r : Outcome (Bool × Option dnode_phys_t))
    (h : Read_dnode env s index dn_null type = some r) :
    (r = { ret := (false, none), s := s, trace := [] } ∧
        (index ≥ s.m_count ∨ dn_null = true)) ∨
    (∃ c, index < s.m_count ∧ map_find s.m_cache index = some c ∧
        r = { ret := (decide (type = DMU_OT_NONE) || decide (c.type = type), some c),
              s := s, trace := [] }) ∨
    (∃ src, index < s.m_count ∧ map_find s.m_cache index = none ∧ s.m_reader = some src ∧
        ¬ full_read env src index ∧
        r = { ret := (false, some (env.as_dnode
                (env.Read src env.sizeof_dnode (u64 (index * env.sizeof_dnode))).2)),
              s := s,
              trace := [Event.read_at src env.sizeof_dnode (u64 (index * env.sizeof_dnode))] }) ∨
    (∃ src, index < s.m_count ∧ map_find s.m_cache index = none ∧ s.m_reader = some src ∧
        full_read env src index ∧
        r = { ret := (decide (type = DMU_OT_NONE) ||
                        decide ((stamped env src index).type = type),
                      some (stamped env src index)),
              s := cached env s src index,
              trace := [Event.read_at src env.sizeof_dnode (u64 (index * env.sizeof_dnode))] }) := by
  by_cases h0 : index ≥ s.m_count ∨ dn_null = true
  · rw [Read_dnode_reject env s index dn_null type h0] at h
    exact Or.inl ⟨(Option.some.inj h).symm, h0⟩
  · have hidx : index < s.m_count := by
      by_contra hc; exact h0 (Or.inl (Nat.le_of_not_lt hc))
    have hdn : dn_null = false := by
      cases dn_null
      · rfl
      · exact absurd (Or.inr rfl) h0
    subst hdn
    right
    cases hc : map_find s.m_cache index with
    | some c =>
      rw [Read_dnode_hit env s index type c hidx hc] at h
      exact Or.inl ⟨c, hidx, rfl, (Option.some.inj h).symm⟩
    | none =>
      right
      cases hr : s.m_reader with
      | none =>
        rw [Read_dnode_null_reader env s index type hidx hc hr] at h
        cases h
      | some src =>
        by_cases hf : full_read env src index
        · rw [Read_dnode_full env s index type src hidx hc hr hf] at h
          exact Or.inr ⟨src, hidx, rfl, rfl, hf, (Option.some.inj h).symm⟩
        · rw [Read_dnode_short env s index type src hidx hc hr hf] at h
          exact Or.inl ⟨src, hidx, rfl, rfl, hf, (Option.some.inj h).symm⟩

/-- The members of `cached env s src index` other than `m_cache` are those of `s`. -/
theorem cached_frame (env : Env) (s : ObjectSet) (src : dnode_phys_t) (index : Nat) :
    (cached env s src index).m_objdir = s.m_objdir ∧
      (cached env s src index).m_reader = s.m_reader ∧
      (cached env s src index).m_count = s.m_count ∧
      (cached env s src index).m_objset = s.m_objset := by
  unfold cached
  split <;> simp

/-- `Read_dnode` changes no member but `m_cache`. -/
theorem Read_dnode_frame (env : Env) (s : ObjectSet) (index : Nat) (dn_null : Bool) (type : Nat)
    (r : Outcome (Bool × Option dnode_phys_t))
    (h : Read_dnode env s index dn_null type = some r) :
    r.s.m_objdir = s.m_objdir ∧ r.s.m_reader = s.m_reader ∧ r.s.m_count = s.m_count ∧
      r.s.m_objset = s.m_objset := by
  rcases Read_dnode_cases env s index dn_null type r h with
    ⟨hr, _⟩ | ⟨c, _, _, hr⟩ | ⟨src, _, _, _, _, hr⟩ | ⟨src, _, _, _, _, hr⟩
  · subst hr; simp
  · subst hr; simp
  · subst hr; simp
  · subst hr; exact cached_frame env s src index

/-- A successful `Read_dnode` has stored a record in `*dn`. -/
theorem Read_dnode_ok_some (env : Env) (s : ObjectSet) (index : Nat) (dn_null : Bool)
    (type : Nat) (r : Outcome (Bool × Option dnode_phys_t))
    (h : Read_dnode env s index dn_null type = some r) (hok : r.ret.1 = true) :
    ∃ d, r.ret.2 = some d := by
  rcases Read_dnode_cases env s index dn_null type r h with
    ⟨hr, _⟩ | ⟨c, _, _, hr⟩ | ⟨src, _, _, _, _, hr⟩ | ⟨src, _, _, _, _, hr⟩
  · subst hr; simp at hok
  · subst hr; exact ⟨c, rfl⟩
  · subst hr; simp at hok
  · subst hr; exact ⟨_, rfl⟩

/-- The calls `Read_dnode` makes: none, or one read of one record on `m_reader`. -/
theorem Read_dnode_trace (env : Env) (s : ObjectSet) (index : Nat) (dn_null : Bool)
    (type : Nat) (r : Outcome (Bool × Option dnode_phys_t))
    (h : Read_dnode env s index dn_null type = some r) :
    r.trace = [] ∨
      ∃ src, s.m_reader = some src ∧ map_find s.m_cache index = none ∧
        r.trace = [Event.read_at src env.sizeof_dnode (u64 (index * env.sizeof_dnode))] := by
  rcases Read_dnode_cases env s index dn_null type r h with
    ⟨hr, _⟩ | ⟨c, _, _, hr⟩ | ⟨src, _, hc, hs, _, hr⟩ | ⟨src, _, hc, hs, _, hr⟩
  · subst hr; exact Or.inl rfl
  · subst hr; exact Or.inl rfl
  · subst hr; exact Or.inr ⟨src, hs, hc, rfl⟩
  · subst hr; exact Or.inr ⟨src, hs, hc, rfl⟩

/-! ## Lemmas on `Read_zap` -/

theorem Read_zap_hit (env : Env) (s : ObjectSet) (index : Nat) (type : Nat) (addr : Nat)
    (z : ZapObject) (hz : map_find s.m_objdir index = some z) :
    Read_zap env s index type addr = some { ret := (true, some z), s := s, trace := [] } := by
  unfold Read_zap
  rw [hz]

theorem Read_zap_undefined (env : Env) (s : ObjectSet) (index : Nat) (type : Nat) (addr : Nat)
    (hz : map_find s.m_objdir index = none)
    (h0 : Read_dnode env s index false type = none) :
    Read_zap env s index type addr = none := by
  unfold Read_zap
  rw [hz]; dsimp only; rw [h0]

theorem Read_zap_read_failed (env : Env) (s : ObjectSet) (index : Nat) (type : Nat) (addr : Nat)
    (r0 : Outcome (Bool × Option dnode_phys_t))
    (hz : map_find s.m_objdir index = none)
    (h0 : Read_dnode env s index false type = some r0) (hf : r0.ret.1 = false) :
    Read_zap env s index type addr =
      some { ret := (false, none), s := r0.s, trace := r0.trace } := by
  unfold Read_zap
  rw [hz]; dsimp only; rw [h0]; dsimp only; rw [if_pos hf]

theorem Read_zap_not_zap (env : Env) (s : ObjectSet) (index : Nat) (type : Nat) (addr : Nat)
    (r0 : Outcome (Bool × Option dnode_phys_t)) (dn : dnode_phys_t)
    (hz : map_find s.m_objdir index = none)
    (h0 : Read_dnode env s index false type = some r0) (hret : r0.ret = (true, some dn))
    (ht : is_zap_type dn.type = false) :
    Read_zap env s index type addr =
      some { ret := (false, none), s := r0.s, trace := r0.trace ++ [Event.printf dn.type] } := by
  unfold Read_zap
  rw [hz]; dsimp only; rw [h0]; dsimp only
  have h1 : ¬ (r0.ret.1 = false) := by rw [hret]; simp
  rw [if_neg h1]
  have h2 : r0.ret.2 = some dn := by rw [hret]
  rw [h2]; dsimp only; rw [if_pos ht]

theorem Read_zap_init_failed (env : Env) (s : ObjectSet) (index : Nat) (type : Nat) (addr : Nat)
    (r0 : Outcome (Bool × Option dnode_phys_t)) (dn : dnode_phys_t)
    (hz : map_find s.m_objdir index = none)
    (h0 : Read_dnode env s index false type = some r0) (hret : r0.ret = (true, some dn))
    (ht : is_zap_type dn.type = true) (hi : (env.ZapInit dn).1 = false) :
    Read_zap env s index type addr =
      some { ret := (false, some { addr := addr, entries := (env.ZapInit dn).2 }), s := r0.s,
             trace := r0.trace ++ [Event.zap_new addr, Event.zap_init addr dn] ++
               [Event.zap_delete addr] } := by
  unfold Read_zap
  rw [hz]; dsimp only; rw [h0]; dsimp only
  have h1 : ¬ (r0.ret.1 = false) := by rw [hret]; simp
  rw [if_neg h1]
  have h2 : r0.ret.2 = some dn := by rw [hret]
  rw [h2]; dsimp only
  have h3 : ¬ (is_zap_type dn.type = false) := by rw [ht]; simp
  rw [if_neg h3, if_pos hi]

theorem Read_zap_built (env : Env) (s : ObjectSet) (index : Nat) (type : Nat) (addr : Nat)
    (r0 : Outcome (Bool × Option dnode_phys_t)) (dn : dnode_phys_t)
    (hz : map_find s.m_objdir index = none)
    (h0 : Read_dnode env s index false type = some r0) (hret : r0.ret = (true, some dn))
    (ht : is_zap_type dn.type = true) (hi : (env.ZapInit dn).1 = true) :
    Read_zap env s index type addr =
      some { ret := (true, some { addr := addr, entries := (env.ZapInit dn).2 })
             s := { r0.s with
               m_objdir := map_set r0.s.m_objdir index
                 { addr := addr, entries := (env.ZapInit dn).2 } }
             trace := r0.trace ++ [Event.zap_new addr, Event.zap_init addr dn] } := by
  unfold Read_zap
  rw [hz]; dsimp only; rw [h0]; dsimp only
  have h1 : ¬ (r0.ret.1 = false) := by rw [hret]; simp
  rw [if_neg h1]
  have h2 : r0.ret.2 = some dn := by rw [hret]
  rw [h2]; dsimp only
  have h3 : ¬ (is_zap_type dn.type = false) := by rw [ht]; simp
  have h4 : ¬ ((env.ZapInit dn).1 = false) := by rw [hi]; simp
  rw [if_neg h3, if_neg h4]

/-- The ways a call of `Read_zap` can go. -/
theorem Read_zap_cases (env : Env) (s : ObjectSet) (index : Nat) (type : Nat) (addr : Nat)
    (r : Outcome (Bool × Option ZapObject))
    (h : Read_zap env s index type addr = some r) :
    (∃ z, map_find s.m_objdir index = some z ∧
        r = { ret := (true, some z), s := s, trace := [] }) ∨
    (∃ r0, map_find s.m_objdir index = none ∧ Read_dnode env s index false type = some r0 ∧
        r0.ret.1 = false ∧ r = { ret := (false, none), s := r0.s, trace := r0.trace }) ∨
    (∃ r0 dn, map_find s.m_objdir index = none ∧
        Read_dnode env s index false type = some r0 ∧ r0.ret = (true, some dn) ∧
        is_zap_type dn.type = false ∧
        r = { ret := (false, none), s := r0.s,
              trace := r0.trace ++ [Event.printf dn.type] }) ∨
    (∃ r0 dn, map_find s.m_objdir index = none ∧
        Read_dnode env s index false type = some r0 ∧ r0.ret = (true, some dn) ∧
        is_zap_type dn.type = true ∧ (env.ZapInit dn).1 = false ∧
        r = { ret := (false, some { addr := addr, entries := (env.ZapInit dn).2 }), s := r0.s,
              trace := r0.trace ++ [Event.zap_new addr, Event.zap_init addr dn] ++
                [Event.zap_delete addr] }) ∨
    (∃ r0 dn, map_find s.m_objdir index = none ∧
        Read_dnode env s index false type = some r0 ∧ r0.ret = (true, some dn) ∧
        is_zap_type dn.type = true ∧ (env.ZapInit dn).1 = true ∧
        r = { ret := (true, some { addr := addr, entries := (env.ZapInit dn).2 })
              s := { r0.s with
                m_objdir := map_set r0.s.m_objdir index
                  { addr := addr, entries := (env.ZapInit dn).2 } }
              trace := r0.trace ++ [Event.zap_new addr, Event.zap_init addr dn] }) := by
  cases hz : map_find s.m_objdir index with
  | some z =>
    rw [Read_zap_hit env s index type addr z hz] at h
    exact Or.inl ⟨z, rfl, (Option.some.inj h).symm⟩
  | none =>
    right
    cases h0 : Read_dnode env s index false type with
    | none =>
      rw [Read_zap_undefined env s index type addr hz h0] at h
      cases h
    | some r0 =>
      cases hb : r0.ret.1 with
      | false =>
        rw [Read_zap_read_failed env s index type addr r0 hz h0 hb] at h
        exact Or.inl ⟨r0, rfl, rfl, hb, (Option.some.inj h).symm⟩
      | true =>
        right
        obtain ⟨dn, hdn⟩ := Read_dnode_ok_some env s index false type r0 h0 hb
        have hret : r0.ret = (true, some dn) := Prod.ext hb hdn
        cases ht : is_zap_type dn.type with
        | false =>
          rw [Read_zap_not_zap env s index type addr r0 dn hz h0 hret ht] at h
          exact Or.inl ⟨r0, dn, rfl, rfl, hret, ht, (Option.some.inj h).symm⟩
        | true =>
          right
          cases hi : (env.ZapInit dn).1 with
          | false =>
            rw [Read_zap_init_failed env s index type addr r0 dn hz h0 hret ht hi] at h
            exact Or.inl ⟨r0, dn, rfl, rfl, hret, ht, hi, (Option.some.inj h).symm⟩
          | true =>
            rw [Read_zap_built env s index type addr r0 dn hz h0 hret ht hi] at h
            exact Or.inr ⟨r0, dn, rfl, rfl, hret, ht, hi, (Option.some.inj h).symm⟩

/-- A successful `Read_zap` has stored a pointer in `*zap`. -/
theorem Read_zap_ok_some (env : Env) (s : ObjectSet) (index : Nat) (type : Nat) (addr : Nat)
    (r : Outcome (Bool × Option ZapObject))
    (h : Read_zap env s index type addr = some r) (hok : r.ret.1 = true) :
    ∃ z, r.ret.2 = some z ∧ map_find r.s.m_objdir index = some z := by
  rcases Read_zap_cases env s index type addr r h with
    ⟨z, hz, hr⟩ | ⟨r0, _, _, _, hr⟩ | ⟨r0, dn, _, _, _, _, hr⟩ |
    ⟨r0, dn, _, _, _, _, _, hr⟩ | ⟨r0, dn, _, _, _, _, _, hr⟩
  · subst hr; exact ⟨z, rfl, hz⟩
  · subst hr; simp at hok
  · subst hr; simp at hok
  · subst hr; simp at hok
  · subst hr
    refine ⟨_, rfl, ?_⟩
    dsimp only
    rw [map_find_map_set]; simp

/-- The types the `switch` lets through, as a list. -/
theorem is_zap_type_iff (t : Nat) :
    is_zap_type t = true ↔
      t ∈ [DMU_OT_OBJECT_DIRECTORY, DMU_OT_DSL_DIR_CHILD_MAP, DMU_OT_DSL_DS_SNAP_MAP,
           DMU_OT_DSL_PROPS, DMU_OT_DIRECTORY_CONTENTS, DMU_OT_MASTER_NODE,
           DMU_OT_UNLINKED_SET, DMU_OT_ZVOL_PROP, DMU_OT_ZAP_OTHER, DMU_OT_ERROR_LOG,
           DMU_OT_POOL_PROPS, DMU_OT_DSL_PERMS, DMU_OT_NEXT_CLONES, DMU_OT_SCRUB_QUEUE,
           DMU_OT_USERGROUP_USED, DMU_OT_USERGROUP_QUOTA, DMU_OT_USERREFS, DMU_OT_DDT_ZAP,
           DMU_OT_DDT_STATS] := by
  unfold is_zap_type
  simp only [Bool.or_eq_true, decide_eq_true_eq, List.mem_cons, List.mem_singleton,
    List.mem_nil_iff, or_false, or_assoc]

end ObjectSet

/-! ## The state after each operation -/

theorem Init_failed (env : Env) (s : ObjectSet) (bp : blkptr_t)
    (h : (ObjectSet.read_header env bp).meta_dnode.type ≠ DMU_OT_DNODE) :
    ObjectSet.Init env s bp =
      { ret := false
        s := { m_objset := (ObjectSet.read_header env bp)
               m_objdir := [], m_cache := [], m_reader := none, m_count := 0 }
        trace := (ObjectSet.RemoveAll s).trace ++ [Event.pool_read bp] } := by
  unfold ObjectSet.Init
  dsimp only
  rw [if_pos h]
  rfl

theorem Init_succeeded (env : Env) (s : ObjectSet) (bp : blkptr_t)
    (h : (ObjectSet.read_header env bp).meta_dnode.type = DMU_OT_DNODE) :
    ObjectSet.Init env s bp =
      { ret := true
        s := { m_objset := (ObjectSet.read_header env bp)
               m_objdir := [], m_cache := []
               m_reader := some (ObjectSet.read_header env bp).meta_dnode
               m_count := u64 (env.GetDataSize (ObjectSet.read_header env bp).meta_dnode) /
                 env.sizeof_dnode }
        trace := (ObjectSet.RemoveAll s).trace ++ [Event.pool_read bp] ++
          [Event.reader_new (ObjectSet.read_header env bp).meta_dnode,
           Event.get_data_size (ObjectSet.read_header env bp).meta_dnode] } := by
  unfold ObjectSet.Init
  dsimp only
  rw [if_neg (not_not.mpr h)]
  rfl

/-- `Init` leaves both caches empty. -/
theorem Init_caches (env : Env) (s : ObjectSet) (bp : blkptr_t) :
    (ObjectSet.Init env s bp).s.m_cache = [] ∧ (ObjectSet.Init env s bp).s.m_objdir = [] := by
  by_cases h : (ObjectSet.read_header env bp).meta_dnode.type = DMU_OT_DNODE
  · rw [Init_succeeded env s bp h]; exact ⟨rfl, rfl⟩
  · rw [Init_failed env s bp h]; exact ⟨rfl, rfl⟩

/-- `Read_zap` leaves the record table as the `Read_dnode` it may call does. -/
theorem Read_zap_state (env : Env) (s : ObjectSet) (index : Nat) (type : Nat) (addr : Nat)
    (r : Outcome (Bool × Option ZapObject))
    (h : ObjectSet.Read_zap env s index type addr = some r) :
    (r.s = s) ∨
    (∃ r0, ObjectSet.Read_dnode env s index false type = some r0 ∧
      r.s.m_cache = r0.s.m_cache ∧ r.s.m_reader = r0.s.m_reader ∧
      r.s.m_count = r0.s.m_count ∧ r.s.m_objset = r0.s.m_objset) := by
  rcases ObjectSet.Read_zap_cases env s index type addr r h with
    ⟨z, hz, hr⟩ | ⟨r0, _, h0, _, hr⟩ | ⟨r0, dn, _, h0, _, _, hr⟩ |
    ⟨r0, dn, _, h0, _, _, _, hr⟩ | ⟨r0, dn, _, h0, _, _, _, hr⟩
  · subst hr; exact Or.inl rfl
  · subst hr; exact Or.inr ⟨r0, h0, rfl, rfl, rfl, rfl⟩
  · subst hr; exact Or.inr ⟨r0, h0, rfl, rfl, rfl, rfl⟩
  · subst hr; exact Or.inr ⟨r0, h0, rfl, rfl, rfl, rfl⟩
  · subst hr; exact Or.inr ⟨r0, h0, rfl, rfl, rfl, rfl⟩

/-- `GetIndex` leaves the object set as the `Read_zap` it calls does. -/
theorem GetIndex_state (env : Env) (s : ObjectSet) (name : String) (parent_index : Nat)
    (addr : Nat) (r : Outcome Nat)
    (h : ObjectSet.GetIndex env s name parent_index addr = some r) :
    ∃ rz, ObjectSet.Read_zap env s parent_index DMU_OT_NONE addr = some rz ∧ r.s = rz.s := by
  unfold ObjectSet.GetIndex at h
  cases hz : ObjectSet.Read_zap env s parent_index DMU_OT_NONE addr with
  | none => rw [hz] at h; cases h
  | some rz =>
    rw [hz] at h
    refine ⟨rz, rfl, ?_⟩
    dsimp only at h
    split at h
    · cases h; rfl
    · split at h
      · cases h
      · split at h
        · cases h; rfl
        · cases h; rfl

/-- `Read_nvl` leaves the object set as the `Read_dnode` it calls does. -/
theorem Read_nvl_state (env : Env) (s : ObjectSet) (index : Nat) (nvl : NameValueList)
    (r : Outcome (Bool × NameValueList))
    (h : ObjectSet.Read_nvl env s index nvl = some r) :
    ∃ r0, ObjectSet.Read_dnode env s index false DMU_OT_PACKED_NVLIST = some r0 ∧
      r.s = r0.s := by
  unfold ObjectSet.Read_nvl at h
  cases h0 : ObjectSet.Read_dnode env s index false DMU_OT_PACKED_NVLIST with
  | none => rw [h0] at h; cases h
  | some r0 =>
    rw [h0] at h
    refine ⟨r0, rfl, ?_⟩
    dsimp only at h
    split at h
    · cases h; rfl
    · split at h
      · cases h
      · split at h
        · cases h; rfl
        · cases h; rfl

/-! ## The record-table invariant -/

theorem RecordInv_congr (env : Env) (s t : ObjectSet) (hc : t.m_cache = s.m_cache)
    (hr : t.m_reader = s.m_reader) (hn : t.m_count = s.m_count) (h : RecordInv env s) :
    RecordInv env t := by
  unfold RecordInv at *
  rw [hc, hr, hn]
  exact h

theorem RecordInv_Init (env : Env) (s : ObjectSet) (bp : blkptr_t) :
    RecordInv env (ObjectSet.Init env s bp).s := by
  by_cases h : (ObjectSet.read_header env bp).meta_dnode.type = DMU_OT_DNODE
  · rw [Init_succeeded env s bp h]
    refine ⟨?_, ?_, ?_⟩
    · intro h1; simp at h1
    · intro src h1
      dsimp only at h1
      cases h1
      rfl
    · intro e he; simp at he
  · rw [Init_failed env s bp h]
    refine ⟨?_, ?_, ?_⟩
    · intro _; rfl
    · intro src h1; simp at h1
    · intro e he; simp at he

theorem RecordInv_Read_dnode (env : Env) (s : ObjectSet) (index : Nat) (dn_null : Bool)
    (type : Nat) (r : Outcome (Bool × Option dnode_phys_t))
    (h : ObjectSet.Read_dnode env s index dn_null type = some r) (hinv : RecordInv env s) :
    RecordInv env r.s := by
  rcases ObjectSet.Read_dnode_cases env s index dn_null type r h with
    ⟨hr, _⟩ | ⟨c, _, _, hr⟩ | ⟨src, _, _, _, _, hr⟩ | ⟨src, hidx, hc, hs, hf, hr⟩
  · subst hr; exact hinv
  · subst hr; exact hinv
  · subst hr; exact hinv
  · subst hr
    dsimp only
    unfold ObjectSet.cached
    split
    · rename_i ht
      obtain ⟨h1, h2, h3⟩ := hinv
      refine ⟨h1, h2, ?_⟩
      intro e he
      dsimp only at he ⊢
      rcases mem_map_set _ _ _ _ he with he | he
      · subst he
        exact ⟨hidx, ht, src, hs, hf, rfl⟩
      · exact h3 e he
    · exact hinv

/-- Every reachable object set satisfies the record-table invariant. -/
theorem Reachable.inv (env : Env) (s : ObjectSet) (h : Reachable env s) : RecordInv env s := by
  induction h with
  | new objset =>
    refine ⟨fun _ => rfl, ?_, ?_⟩
    · intro src h1; simp [ObjectSet.new] at h1
    · intro e he; simp [ObjectSet.new] at he
  | Init bp _ _ => exact RecordInv_Init env _ bp
  | Read_dnode index dn_null type _ hr ih =>
    exact RecordInv_Read_dnode env _ index dn_null type _ hr ih
  | Read_zap index type addr _ hr ih =>
    rcases Read_zap_state env _ index type addr _ hr with h1 | ⟨r0, h0, hc, hrd, hn, _⟩
    · rw [h1]; exact ih
    · exact RecordInv_congr env r0.s _ hc hrd hn
        (RecordInv_Read_dnode env _ index false type r0 h0 ih)
  | GetIndex name parent addr _ hr ih =>
    obtain ⟨rz, hz, hs⟩ := GetIndex_state env _ name parent addr _ hr
    rw [hs]
    rcases Read_zap_state env _ parent DMU_OT_NONE addr rz hz with h1 | ⟨r0, h0, hc, hrd, hn, _⟩
    · rw [h1]; exact ih
    · exact RecordInv_congr env r0.s _ hc hrd hn
        (RecordInv_Read_dnode env _ parent false DMU_OT_NONE r0 h0 ih)
  | Read_nvl index nvl _ hr ih =>
    obtain ⟨r0, h0, hs⟩ := Read_nvl_state env _ index nvl _ hr
    rw [hs]
    exact RecordInv_Read_dnode env _ index false DMU_OT_PACKED_NVLIST r0 h0 ih

/-- Below `m_count` the byte offset of a record fits in 64 bits, and the record
ends inside the reader's data. -/
theorem offset_in_range (env : Env) (s : ObjectSet) (src : dnode_phys_t) (index : Nat)
    (hinv : RecordInv env s) (hs : s.m_reader = some src) (hidx : index < s.m_count) :
    u64 (index * env.sizeof_dnode) = index * env.sizeof_dnode ∧
      index * env.sizeof_dnode + env.sizeof_dnode ≤ u64 (env.GetDataSize src) := by
  have hc := hinv.2.1 src hs
  rw [hc] at hidx
  have hpos : 0 < env.sizeof_dnode := by
    rcases Nat.eq_zero_or_pos env.sizeof_dnode with h0 | h0
    · rw [h0, Nat.div_zero] at hidx; exact absurd hidx (Nat.not_lt_zero _)
    · exact h0
  have h1 : (index + 1) * env.sizeof_dnode ≤ u64 (env.GetDataSize src) :=
    (Nat.le_div_iff_mul_le hpos).mp hidx
  have h2 : u64 (env.GetDataSize src) < 2 ^ 64 := Nat.mod_lt _ (by norm_num)
  have h3 : (index + 1) * env.sizeof_dnode = index * env.sizeof_dnode + env.sizeof_dnode := by
    ring
  rw [h3] at h1
  refine ⟨?_, h1⟩
  unfold u64
  apply Nat.mod_eq_of_lt
  unfold u64 at h1 h2
  omega

/-- With the record-table invariant `Read_dnode` never meets a null reader. -/
theorem Read_dnode_defined (env : Env) (s : ObjectSet) (index : Nat) (dn_null : Bool)
    (type : Nat) (hinv : RecordInv env s) :
    ∃ r, ObjectSet.Read_dnode env s index dn_null type = some r := by
  by_cases h0 : index ≥ s.m_count ∨ dn_null = true
  · exact ⟨_, ObjectSet.Read_dnode_reject env s index dn_null type h0⟩
  · have hidx : index < s.m_count := by
      by_contra hc; exact h0 (Or.inl (Nat.le_of_not_lt hc))
    have hdn : dn_null = false := by
      cases dn_null
      · rfl
      · exact absurd (Or.inr rfl) h0
    subst hdn
    cases hc : map_find s.m_cache index with
    | some c => exact ⟨_, ObjectSet.Read_dnode_hit env s index type c hidx hc⟩
    | none =>
      cases hr : s.m_reader with
      | none =>
        have := hinv.1 hr
        omega
      | some src =>
        by_cases hf : full_read env src index
        · exact ⟨_, ObjectSet.Read_dnode_full env s index type src hidx hc hr hf⟩
        · exact ⟨_, ObjectSet.Read_dnode_short env s index type src hidx hc hr hf⟩

/-- When the record read is defined, so is `Read_zap`. -/
theorem Read_zap_defined (env : Env) (s : ObjectSet) (index : Nat) (type : Nat) (addr : Nat)
    (h : ∃ r0, ObjectSet.Read_dnode env s index false type = some r0) :
    ∃ r, ObjectSet.Read_zap env s index type addr = some r := by
  obtain ⟨r0, h0⟩ := h
  cases hz : map_find s.m_objdir index with
  | some z => exact ⟨_, ObjectSet.Read_zap_hit env s index type addr z hz⟩
  | none =>
    cases hb : r0.ret.1 with
    | false => exact ⟨_, ObjectSet.Read_zap_read_failed env s index type addr r0 hz h0 hb⟩
    | true =>
      obtain ⟨dn, hdn⟩ := ObjectSet.Read_dnode_ok_some env s index false type r0 h0 hb
      have hret : r0.ret = (true, some dn) := Prod.ext hb hdn
      cases ht : ObjectSet.is_zap_type dn.type with
      | false => exact ⟨_, ObjectSet.Read_zap_not_zap env s index type addr r0 dn hz h0 hret ht⟩
      | true =>
        cases hi : (env.ZapInit dn).1 with
        | false =>
          exact ⟨_, ObjectSet.Read_zap_init_failed env s index type addr r0 dn hz h0 hret ht hi⟩
        | true =>
          exact ⟨_, ObjectSet.Read_zap_built env s index type addr r0 dn hz h0 hret ht hi⟩

/-- The record `Read_dnode` stores on success does not depend on the expected
type: with a type the record does not have, the call differs from the call
without expected type in the returned flag only. -/
theorem Read_dnode_mismatch (env : Env) (s : ObjectSet) (index : Nat) (type : Nat)
    (r0 : Outcome (Bool × Option dnode_phys_t)) (d : dnode_phys_t)
    (h0 : ObjectSet.Read_dnode env s index false DMU_OT_NONE = some r0)
    (hret : r0.ret = (true, some d)) (hne : type ≠ DMU_OT_NONE) (hty : d.type ≠ type) :
    ObjectSet.Read_dnode env s index false type =
      some { ret := (false, some d), s := r0.s, trace := r0.trace } := by
  rcases ObjectSet.Read_dnode_cases env s index false DMU_OT_NONE r0 h0 with
    ⟨hr, _⟩ | ⟨c, hidx, hc, hr⟩ | ⟨src, _, _, _, _, hr⟩ | ⟨src, hidx, hc, hs, hf, hr⟩
  · subst hr; simp at hret
  · subst hr
    have hd : c = d := by simpa using hret
    subst hd
    rw [ObjectSet.Read_dnode_hit env s index type c hidx hc]
    simp [hne, hty]
  · subst hr; simp at hret
  · subst hr
    have hd : stamped env src index = d := by simpa using hret
    rw [ObjectSet.Read_dnode_full env s index type src hidx hc hs hf]
    rw [hd]
    simp [hne, hty]

/-! ## Queries keep what the caches hold -/

theorem Keeps_refl (s : ObjectSet) : Keeps s s :=
  ⟨fun _ _ h => h, fun _ _ h => h, rfl, rfl⟩

theorem Keeps_trans (s t u : ObjectSet) (h1 : Keeps s t) (h2 : Keeps t u) : Keeps s u :=
  ⟨fun k v h => h2.1 k v (h1.1 k v h), fun k z h => h2.2.1 k z (h1.2.1 k z h),
   h2.2.2.1.trans h1.2.2.1, h2.2.2.2.trans h1.2.2.2⟩

/-- Assigning to a key the map does not hold keeps every entry it holds. -/
theorem map_find_map_set_of_absent {V : Type} (m : List (Nat × V)) (k : Nat) (v : V)
    (j : Nat) (w : V) (habs : map_find m k = none) (h : map_find m j = some w) :
    map_find (map_set m k v) j = some w := by
  rw [map_find_map_set]
  by_cases hk : k = j
  · subst hk; rw [habs] at h; cases h
  · rw [if_neg hk]; exact h

theorem Read_dnode_keeps (env : Env) (s : ObjectSet) (index : Nat) (dn_null : Bool)
    (type : Nat) (r : Outcome (Bool × Option dnode_phys_t))
    (h : ObjectSet.Read_dnode env s index dn_null type = some r) : Keeps s r.s := by
  rcases ObjectSet.Read_dnode_cases env s index dn_null type r h with
    ⟨hr, _⟩ | ⟨c, _, _, hr⟩ | ⟨src, _, _, _, _, hr⟩ | ⟨src, _, hc, _, _, hr⟩
  · subst hr; exact Keeps_refl s
  · subst hr; exact Keeps_refl s
  · subst hr; exact Keeps_refl s
  · subst hr
    dsimp only
    unfold ObjectSet.cached
    split
    · refine ⟨?_, fun _ _ h => h, rfl, rfl⟩
      intro k v hk
      exact map_find_map_set_of_absent _ _ _ _ _ hc hk
    · exact Keeps_refl s

theorem Read_zap_keeps (env : Env) (s : ObjectSet) (index : Nat) (type : Nat) (addr : Nat)
    (r : Outcome (Bool × Option ZapObject))
    (h : ObjectSet.Read_zap env s index type addr = some r) : Keeps s r.s := by
  rcases ObjectSet.Read_zap_cases env s index type addr r h with
    ⟨z, hz, hr⟩ | ⟨r0, _, h0, _, hr⟩ | ⟨r0, dn, _, h0, _, _, hr⟩ |
    ⟨r0, dn, _, h0, _, _, _, hr⟩ | ⟨r0, dn, hz, h0, _, _, _, hr⟩
  · subst hr; exact Keeps_refl s
  · subst hr; exact Read_dnode_keeps env s index false type r0 h0
  · subst hr; exact Read_dnode_keeps env s index false type r0 h0
  · subst hr; exact Read_dnode_keeps env s index false type r0 h0
  · subst hr
    have hk := Read_dnode_keeps env s index false type r0 h0
    have hf := (ObjectSet.Read_dnode_frame env s index false type r0 h0).1
    refine ⟨hk.1, ?_, hk.2.2.1, hk.2.2.2⟩
    intro k z hkz
    dsimp only
    rw [hf]
    exact map_find_map_set_of_absent _ _ _ _ _ hz hkz

theorem GetIndex_keeps (env : Env) (s : ObjectSet) (name : String) (parent_index : Nat)
    (addr : Nat) (r : Outcome Nat)
    (h : ObjectSet.GetIndex env s name parent_index addr = some r) : Keeps s r.s := by
  obtain ⟨rz, hz, hs⟩ := GetIndex_state env s name parent_index addr r h
  rw [hs]
  exact Read_zap_keeps env s parent_index DMU_OT_NONE addr rz hz

theorem Read_nvl_keeps (env : Env) (s : ObjectSet) (index : Nat) (nvl : NameValueList)
    (r : Outcome (Bool × NameValueList))
    (h : ObjectSet.Read_nvl env s index nvl = some r) : Keeps s r.s := by
  obtain ⟨r0, h0, hs⟩ := Read_nvl_state env s index nvl r h
  rw [hs]
  exact Read_dnode_keeps env s index false DMU_OT_PACKED_NVLIST r0 h0

/-- Queries alone keep what the caches hold. -/
theorem Queried.keeps (env : Env) (s t : ObjectSet) (h : Queried env s t) : Keeps s t := by
  induction h with
  | refl => exact Keeps_refl s
  | Read_dnode index dn_null type _ hr ih =>
    exact Keeps_trans _ _ _ ih (Read_dnode_keeps env _ index dn_null type _ hr)
  | Read_zap index type addr _ hr ih =>
    exact Keeps_trans _ _ _ ih (Read_zap_keeps env _ index type addr _ hr)
  | GetIndex name parent addr _ hr ih =>
    exact Keeps_trans _ _ _ ih (GetIndex_keeps env _ name parent addr _ hr)
  | Read_nvl index nvl _ hr ih =>
    exact Keeps_trans _ _ _ ih (Read_nvl_keeps env _ index nvl _ hr)

/-! ## The invariant of `m_objdir` -/

/-- With the record-table invariant every index below `m_count` is a 64-bit
value. -/
theorem index_lt_of_inv (env : Env) (s : ObjectSet) (index : Nat) (hinv : RecordInv env s)
    (hidx : index < s.m_count) : u64 index = index := by
  cases hr : s.m_reader with
  | none =>
    have := hinv.1 hr
    omega
  | some src =>
    have hc := hinv.2.1 src hr
    have h1 : u64 (env.GetDataSize src) / env.sizeof_dnode ≤ u64 (env.GetDataSize src) :=
      Nat.div_le_self _ _
    have h2 : u64 (env.GetDataSize src) < 2 ^ 64 := Nat.mod_lt _ (by norm_num)
    unfold u64
    apply Nat.mod_eq_of_lt
    omega

/-- With the record-table invariant every entry of `m_cache` carries its key in
`pad3[0]`. -/
theorem cache_self_index (env : Env) (s : ObjectSet) (hinv : RecordInv env s) :
    ∀ e ∈ s.m_cache, e.2.pad3_0 = e.1 := by
  intro e he
  obtain ⟨hlt, _, src, _, _, hst⟩ := hinv.2.2 e he
  rw [hst]
  exact index_lt_of_inv env s e.1 hinv hlt

/-- No type the `switch` lets through is plain file contents. -/
theorem is_zap_type_ne_plain (t : Nat) (h : ObjectSet.is_zap_type t = true) :
    t ≠ DMU_OT_PLAIN_FILE_CONTENTS := by
  intro ht
  rw [ht] at h
  revert h
  decide

/-- After a successful `Read_dnode` of a record that is not plain file contents
the index is below `m_count` and `m_cache` holds the record under it. -/
theorem Read_dnode_ok_cached (env : Env) (s : ObjectSet) (index : Nat) (type : Nat)
    (r0 : Outcome (Bool × Option dnode_phys_t)) (dn : dnode_phys_t)
    (h0 : ObjectSet.Read_dnode env s index false type = some r0)
    (hret : r0.ret = (true, some dn)) (hty : dn.type ≠ DMU_OT_PLAIN_FILE_CONTENTS) :
    index < s.m_count ∧ map_find r0.s.m_cache index = some dn := by
  rcases ObjectSet.Read_dnode_cases env s index false type r0 h0 with
    ⟨hr, _⟩ | ⟨c, hidx, hc, hr⟩ | ⟨src, _, _, _, _, hr⟩ | ⟨src, hidx, hc, hs, hf, hr⟩
  · subst hr; simp at hret
  · subst hr
    have hd : c = dn := by
      have := congrArg Prod.snd hret
      simpa using this
    rw [← hd]
    exact ⟨hidx, hc⟩
  · subst hr; simp at hret
  · subst hr
    have hd : stamped env src index = dn := by
      have := congrArg Prod.snd hret
      simpa using this
    refine ⟨hidx, ?_⟩
    dsimp only
    unfold ObjectSet.cached
    rw [hd, if_pos hty]
    dsimp only
    rw [map_find_map_set]; simp

theorem ObjdirInv_of_keeps (s t : ObjectSet) (hk : Keeps s t) (hd : t.m_objdir = s.m_objdir)
    (h : ObjdirInv s) : ObjdirInv t := by
  intro e he
  rw [hd] at he
  obtain ⟨hlt, d, hfind, hty⟩ := h e he
  refine ⟨?_, d, hk.1 _ _ hfind, hty⟩
  rw [hk.2.2.1]; exact hlt

theorem ObjdirInv_Read_dnode (env : Env) (s : ObjectSet) (index : Nat) (dn_null : Bool)
    (type : Nat) (r : Outcome (Bool × Option dnode_phys_t))
    (h : ObjectSet.Read_dnode env s index dn_null type = some r) (hinv : ObjdirInv s) :
    ObjdirInv r.s :=
  ObjdirInv_of_keeps s r.s (Read_dnode_keeps env s index dn_null type r h)
    (ObjectSet.Read_dnode_frame env s index dn_null type r h).1 hinv

theorem ObjdirInv_Read_zap (env : Env) (s : ObjectSet) (index : Nat) (type : Nat) (addr : Nat)
    (r : Outcome (Bool × Option ZapObject))
    (h : ObjectSet.Read_zap env s index type addr = some r) (hinv : ObjdirInv s) :
    ObjdirInv r.s := by
  rcases ObjectSet.Read_zap_cases env s index type addr r h with
    ⟨z, hz, hr⟩ | ⟨r0, _, h0, _, hr⟩ | ⟨r0, dn, _, h0, _, _, hr⟩ |
    ⟨r0, dn, _, h0, _, _, _, hr⟩ | ⟨r0, dn, hz, h0, hret, ht, _, hr⟩
  · subst hr; exact hinv
  · subst hr; exact ObjdirInv_Read_dnode env s index false type r0 h0 hinv
  · subst hr; exact ObjdirInv_Read_dnode env s index false type r0 h0 hinv
  · subst hr; exact ObjdirInv_Read_dnode env s index false type r0 h0 hinv
  · subst hr
    have h1 := ObjdirInv_Read_dnode env s index false type r0 h0 hinv
    obtain ⟨hidx, hfind⟩ := Read_dnode_ok_cached env s index type r0 dn h0 hret
      (is_zap_type_ne_plain dn.type ht)
    have hcount := (ObjectSet.Read_dnode_frame env s index false type r0 h0).2.2.1
    intro e he
    dsimp only at he ⊢
    rcases mem_map_set _ _ _ _ he with he | he
    · subst he
      refine ⟨?_, dn, hfind, ht⟩
      dsimp only
      rw [hcount]; exact hidx
    · exact h1 e he

/-- Every reachable object set satisfies the invariant of `m_objdir`. -/
theorem Reachable.objdir_inv (env : Env) (s : ObjectSet) (h : Reachable env s) :
    ObjdirInv s := by
  induction h with
  | new objset => intro e he; simp [ObjectSet.new] at he
  | Init bp _ _ =>
    intro e he
    rw [(Init_caches env _ bp).2] at he
    cases he
  | Read_dnode index dn_null type _ hr ih =>
    exact ObjdirInv_Read_dnode env _ index dn_null type _ hr ih
  | Read_zap index type addr _ hr ih =>
    exact ObjdirInv_Read_zap env _ index type addr _ hr ih
  | GetIndex name parent addr _ hr ih =>
    obtain ⟨rz, hz, hs⟩ := GetIndex_state env _ name parent addr _ hr
    rw [hs]
    exact ObjdirInv_Read_zap env _ parent DMU_OT_NONE addr rz hz ih
  | Read_nvl index nvl _ hr ih =>
    obtain ⟨r0, h0, hs⟩ := Read_nvl_state env _ index nvl _ hr
    rw [hs]
    exact ObjdirInv_Read_dnode env _ index false DMU_OT_PACKED_NVLIST r0 h0 ih

/-! ## Inserting a new key -/

theorem length_map_set_of_absent {V : Type} (m : List (Nat × V)) (k : Nat) (v : V)
    (habs : map_find m k = none) : (map_set m k v).length = m.length + 1 := by
  induction m with
  | nil => simp [map_set]
  | cons e m ih =>
    obtain ⟨k1, v1⟩ := e
    unfold map_find at habs
    by_cases h1 : k1 = k
    · rw [if_pos h1] at habs; cases habs
    · rw [if_neg h1] at habs
      unfold map_set
      by_cases h2 : k < k1
      · rw [if_pos h2]; simp
      · have h3 : ¬ k = k1 := fun h => h1 h.symm
        rw [if_neg h2, if_neg h3]
        simp [ih habs]

theorem mem_map_set_of_absent {V : Type} (m : List (Nat × V)) (k : Nat) (v : V)
    (e : Nat × V) (habs : map_find m k = none) (he : e ∈ m) : e ∈ map_set m k v := by
  induction m with
  | nil => cases he
  | cons e1 m ih =>
    obtain ⟨k1, v1⟩ := e1
    unfold map_find at habs
    by_cases h1 : k1 = k
    · rw [if_pos h1] at habs; cases habs
    · rw [if_neg h1] at habs
      unfold map_set
      by_cases h2 : k < k1
      · rw [if_pos h2]; exact List.mem_cons_of_mem _ he
      · have h3 : ¬ k = k1 := fun h => h1 h.symm
        rw [if_neg h2, if_neg h3]
        rcases List.mem_cons.mp he with he | he
        · rw [he]; exact List.mem_cons_self _ _
        · exact List.mem_cons_of_mem _ (ih habs he)

open ObjectSet

/-- C1: `Read_dnode` (ReadRecord) called with an index that is not below
`m_count`, or with the invalid-index value `2^64 - 1` on any object set whose
`m_count` is a 64-bit value, returns false, stores nothing in `*dn`, makes no
call on the reader (empty trace) and leaves the whole object set, so both
caches, as it was.  This holds for every expected type and whether or not `dn`
is null. -/
theorem C1_read_record_out_of_range (env : Env) (s : ObjectSet) (index : Nat)
    (dn_null : Bool) (type : Nat)
    (h : s.m_count ≤ index ∨ (index = UINT64_MAX ∧ s.m_count ≤ UINT64_MAX)) :
    Read_dnode env s index dn_null type =
      some { ret := (false, none), s := s, trace := [] } := by
  apply Read_dnode_reject
  left
  rcases h with h | ⟨h1, h2⟩
  · exact h
  · rw [h1]; exact h2

theorem C1_read_record_out_of_range_witness :
    (Demo.s0.m_count ≤ 2 ^ 64 - 1 ∨
        (2 ^ 64 - 1 = UINT64_MAX ∧ Demo.s0.m_count ≤ UINT64_MAX)) ∧
      Read_dnode Demo.env Demo.s0 (2 ^ 64 - 1) false DMU_OT_PACKED_NVLIST =
        some { ret := (false, none), s := Demo.s0, trace := [] } ∧
      Read_dnode Demo.env (ObjectSet.new objset_phys_t.zero) UINT64_MAX false DMU_OT_NONE =
        some { ret := (false, none), s := ObjectSet.new objset_phys_t.zero, trace := [] } :=
  ⟨Or.inr ⟨rfl, by decide⟩,
   C1_read_record_out_of_range Demo.env Demo.s0 (2 ^ 64 - 1) false DMU_OT_PACKED_NVLIST
     (Or.inr ⟨rfl, by decide⟩),
   C1_read_record_out_of_range Demo.env (ObjectSet.new objset_phys_t.zero) UINT64_MAX false
     DMU_OT_NONE (Or.inr ⟨rfl, by decide⟩)⟩

/-- C2: on a reachable object set that holds a reader over `src` (it was
initialised), for an index below `m_count` whose record the reader returns in
full, two consecutive calls of `Read_dnode` (ReadRecord) without expected type
both succeed and both store the record the reader holds for the index, stamped
with the index (`stamped env src index`).  When the first call misses `m_cache`
it reads the record.  When the record is not plain file contents, `m_cache`
holds it after the first call and the second call makes no call on the reader
and changes nothing; when it is plain file contents, the first call leaves the
object set as it was, without a cache entry for the index, and the second call
makes exactly one read of `sizeof(dnode_phys_t)` bytes at offset
`index * sizeof(dnode_phys_t)`. -/
theorem C2_read_record_twice (env : Env) (s : ObjectSet) (index : Nat) (src : dnode_phys_t)
    (hreach : Reachable env s) (hinit : s.m_reader = some src)
    (hidx : index < s.m_count) (hfull : full_read env src index) :
    ∃ r1 r2,
      Read_dnode env s index false DMU_OT_NONE = some r1 ∧
      Read_dnode env r1.s index false DMU_OT_NONE = some r2 ∧
      r1.ret = (true, some (stamped env src index)) ∧
      r2.ret = (true, some (stamped env src index)) ∧
      (map_find s.m_cache index = none →
        r1.trace = [Event.read_at src env.sizeof_dnode (index * env.sizeof_dnode)]) ∧
      ((stamped env src index).type ≠ DMU_OT_PLAIN_FILE_CONTENTS →
        map_find r1.s.m_cache index = some (stamped env src index) ∧
        r2.trace = [] ∧ r2.s = r1.s) ∧
      ((stamped env src index).type = DMU_OT_PLAIN_FILE_CONTENTS →
        map_find r1.s.m_cache index = none ∧ r1.s = s ∧
        r2.trace = [Event.read_at src env.sizeof_dnode (index * env.sizeof_dnode)]) := by
  have hinv := Reachable.inv env s hreach
  have hoff := (offset_in_range env s src index hinv hinit hidx).1
  cases hc : map_find s.m_cache index with
  | some c =>
    have h1 := Read_dnode_hit env s index DMU_OT_NONE c hidx hc
    obtain ⟨_, hty, src2, hs2, _, hst⟩ := hinv.2.2 (index, c) (map_find_mem _ _ _ hc)
    have hsrc : src2 = src := by
      rw [hinit] at hs2
      exact (Option.some.inj hs2).symm
    rw [hsrc] at hst
    dsimp only at hst hty
    rw [hst] at h1 hc hty
    refine ⟨_, _, h1, h1, by simp, by simp, fun h => (by cases h),
      fun _ => ⟨hc, rfl, rfl⟩, fun h => absurd h hty⟩
  | none =>
    have h1 := Read_dnode_full env s index DMU_OT_NONE src hidx hc hinit hfull
    by_cases hty : (stamped env src index).type = DMU_OT_PLAIN_FILE_CONTENTS
    · have hs : cached env s src index = s := by
        unfold cached; rw [if_neg (not_not.mpr hty)]
      rw [hs] at h1
      refine ⟨_, _, h1, h1, by simp, by simp, fun _ => by rw [hoff],
        fun h => absurd hty h, fun _ => ⟨hc, rfl, by rw [hoff]⟩⟩
    · have hs : cached env s src index =
          { s with m_cache := map_set s.m_cache index (stamped env src index) } := by
        unfold cached; rw [if_pos hty]
      have hidx2 : index < (cached env s src index).m_count := by
        rw [(cached_frame env s src index).2.2.1]; exact hidx
      have hc2 : map_find (cached env s src index).m_cache index =
          some (stamped env src index) := by
        rw [hs]; dsimp only; rw [map_find_map_set]; simp
      have h2 := Read_dnode_hit env (cached env s src index) index DMU_OT_NONE
        (stamped env src index) hidx2 hc2
      refine ⟨_, _, h1, h2, by simp, by simp, fun _ => by rw [hoff],
        fun _ => ⟨hc2, rfl, rfl⟩, fun h => absurd h hty⟩

theorem C2_read_record_twice_witness :
    (∃ r1 r2,
      Read_dnode Demo.env Demo.s0 2 false DMU_OT_NONE = some r1 ∧
      Read_dnode Demo.env r1.s 2 false DMU_OT_NONE = some r2 ∧
      r1.ret = (true, some ⟨DMU_OT_PLAIN_FILE_CONTENTS, 2, 2⟩) ∧
      r2.ret = (true, some ⟨DMU_OT_PLAIN_FILE_CONTENTS, 2, 2⟩) ∧
      r1.trace = [Event.read_at Demo.meta_dnode 512 1024] ∧
      map_find r1.s.m_cache 2 = none ∧
      r2.trace = [Event.read_at Demo.meta_dnode 512 1024]) ∧
    (∃ r1 r2,
      Read_dnode Demo.env Demo.s0 5 false DMU_OT_NONE = some r1 ∧
      Read_dnode Demo.env r1.s 5 false DMU_OT_NONE = some r2 ∧
      r1.ret = (true, some ⟨DMU_OT_OBJECT_DIRECTORY, 5, 5⟩) ∧
      r2.ret = (true, some ⟨DMU_OT_OBJECT_DIRECTORY, 5, 5⟩) ∧
      r1.trace = [Event.read_at Demo.meta_dnode 512 2560] ∧
      map_find r1.s.m_cache 5 = some ⟨DMU_OT_OBJECT_DIRECTORY, 5, 5⟩ ∧
      r2.trace = []) := by
  constructor
  · obtain ⟨r1, r2, h1, h2, h3, h4, h5, _, h7⟩ :=
      C2_read_record_twice Demo.env Demo.s0 2 Demo.meta_dnode
        (Reachable.Init Demo.bp (Reachable.new objset_phys_t.zero)) rfl (by decide)
        (by decide)
    obtain ⟨h8, _, h9⟩ := h7 (by decide)
    exact ⟨r1, r2, h1, h2, h3, h4, h5 rfl, h8, h9⟩
  · obtain ⟨r1, r2, h1, h2, h3, h4, h5, h6, _⟩ :=
      C2_read_record_twice Demo.env Demo.s0 5 Demo.meta_dnode
        (Reachable.Init Demo.bp (Reachable.new objset_phys_t.zero)) rfl (by decide)
        (by decide)
    obtain ⟨h8, h9, _⟩ := h6 (by decide)
    exact ⟨r1, r2, h1, h2, h3, h4, h5 rfl, h8, h9⟩

/-- C3: for an index below `m_count` whose record is readable (it is in
`m_cache`, or the reader returns it in full), `Read_dnode` (ReadRecord) with any
expected type stores the record `d` of that index: the entry of `m_cache` when
there is one, otherwise the record read from the reader, stamped with the
index.  It leaves the same object set and makes the same calls as `Read_dnode`
without expected type from the same state: on a cache hit nothing changes and
nothing is read; on a miss the record is read once and, unless it is plain file
contents, assigned to `m_cache[index]`.  The call without expected type
succeeds, and the call with one returns true if and only if the expected type
is `DMU_OT_NONE` or the type of `d`; so with any other expected type it returns
false and has still stored and cached the record. -/
theorem C3_read_record_type_check (env : Env) (s : ObjectSet) (index : Nat) (type : Nat)
    (hidx : index < s.m_count)
    (hread : (∃ c, map_find s.m_cache index = some c) ∨
      (∃ src, s.m_reader = some src ∧ full_read env src index)) :
    ∃ r0 r d,
      Read_dnode env s index false DMU_OT_NONE = some r0 ∧ r0.ret = (true, some d) ∧
      Read_dnode env s index false type = some r ∧ r.ret.2 = some d ∧
      r.s = r0.s ∧ r.trace = r0.trace ∧
      (r.ret.1 = true ↔ (type = DMU_OT_NONE ∨ d.type = type)) ∧
      (∀ c, map_find s.m_cache index = some c → d = c ∧ r.s = s ∧ r.trace = []) ∧
      (∀ src, map_find s.m_cache index = none → s.m_reader = some src →
        d = stamped env src index ∧
        r.trace = [Event.read_at src env.sizeof_dnode (u64 (index * env.sizeof_dnode))] ∧
        (d.type ≠ DMU_OT_PLAIN_FILE_CONTENTS →
          r.s = { s with m_cache := map_set s.m_cache index d }) ∧
        (d.type = DMU_OT_PLAIN_FILE_CONTENTS → r.s = s)) := by
  cases hc : map_find s.m_cache index with
  | some c =>
    refine ⟨_, _, c, Read_dnode_hit env s index DMU_OT_NONE c hidx hc, by simp,
      Read_dnode_hit env s index type c hidx hc, rfl, rfl, rfl, by simp, ?_, ?_⟩
    · intro c2 hc2
      exact ⟨(Option.some.inj hc2), rfl, rfl⟩
    · intro src hn
      cases hn
  | none =>
    rcases hread with ⟨c, hc1⟩ | ⟨src, hs, hf⟩
    · rw [hc] at hc1; cases hc1
    · refine ⟨_, _, stamped env src index,
        Read_dnode_full env s index DMU_OT_NONE src hidx hc hs hf, by simp,
        Read_dnode_full env s index type src hidx hc hs hf, rfl, rfl, rfl, by simp, ?_, ?_⟩
      · intro c2 hc2
        cases hc2
      · intro src2 _ hs2
        have hsrc : src2 = src := by
          rw [hs] at hs2
          exact (Option.some.inj hs2).symm
        subst hsrc
        refine ⟨rfl, rfl, ?_, ?_⟩
        · intro hty
          dsimp only
          unfold cached
          rw [if_pos hty]
        · intro hty
          dsimp only
          unfold cached
          rw [if_neg (not_not.mpr hty)]

theorem C3_read_record_type_check_witness :
    ∃ r r2,
      Read_dnode Demo.env Demo.s0 5 false DMU_OT_PACKED_NVLIST = some r ∧
      r.ret = (false, some ⟨DMU_OT_OBJECT_DIRECTORY, 5, 5⟩) ∧
      r.s.m_cache = [(5, ⟨DMU_OT_OBJECT_DIRECTORY, 5, 5⟩)] ∧
      r.trace = [Event.read_at Demo.meta_dnode 512 2560] ∧
      Read_dnode Demo.env Demo.s0 5 false DMU_OT_OBJECT_DIRECTORY = some r2 ∧
      r2.ret = (true, some ⟨DMU_OT_OBJECT_DIRECTORY, 5, 5⟩) ∧
      r2.s.m_cache = [(5, ⟨DMU_OT_OBJECT_DIRECTORY, 5, 5⟩)] := by
  obtain ⟨_, r, d, _, _, h1, h2, _, _, h3, _, h4⟩ :=
    C3_read_record_type_check Demo.env Demo.s0 5 DMU_OT_PACKED_NVLIST (by decide)
      (Or.inr ⟨Demo.meta_dnode, rfl, by decide⟩)
  obtain ⟨_, r2, d2, _, _, k1, k2, _, _, k3, _, k4⟩ :=
    C3_read_record_type_check Demo.env Demo.s0 5 DMU_OT_OBJECT_DIRECTORY (by decide)
      (Or.inr ⟨Demo.meta_dnode, rfl, by decide⟩)
  obtain ⟨hd, htr, hcache, _⟩ := h4 Demo.meta_dnode rfl rfl
  obtain ⟨kd, _, kcache, _⟩ := k4 Demo.meta_dnode rfl rfl
  have hd2 : d = ⟨DMU_OT_OBJECT_DIRECTORY, 5, 5⟩ := hd
  have kd2 : d2 = ⟨DMU_OT_OBJECT_DIRECTORY, 5, 5⟩ := kd
  subst hd2
  subst kd2
  have hflag : r.ret.1 = false := by
    cases hb : r.ret.1 with
    | false => rfl
    | true =>
      have := h3.mp hb
      revert this
      decide
  have kflag : r2.ret.1 = true := k3.mpr (Or.inr rfl)
  refine ⟨r, r2, h1, Prod.ext hflag h2, ?_, htr, k1, Prod.ext kflag k2, ?_⟩
  · rw [hcache (by decide)]; rfl
  · rw [kcache (by decide)]; rfl

/-- C4: in every reachable object set (constructed, then any sequence of `Init`,
`Read_dnode`, `Read_zap`, `GetIndex`, `Read_nvl`) no entry of `m_cache` is plain
file contents; and on any object set a `Read_dnode` that misses `m_cache` and
reads in full a record of any other type stores that record and leaves it in
`m_cache` under its index. -/
theorem C4_record_cache_invariant (env : Env) (s : ObjectSet) (hreach : Reachable env s) :
    (∀ e ∈ s.m_cache, e.2.type ≠ DMU_OT_PLAIN_FILE_CONTENTS) ∧
    (∀ (t : ObjectSet) (index type : Nat) (src : dnode_phys_t),
      index < t.m_count → map_find t.m_cache index = none →
      t.m_reader = some src → full_read env src index →
      (stamped env src index).type ≠ DMU_OT_PLAIN_FILE_CONTENTS →
      ∃ r, Read_dnode env t index false type = some r ∧
        r.ret.2 = some (stamped env src index) ∧
        map_find r.s.m_cache index = some (stamped env src index)) := by
  refine ⟨fun e he => ((Reachable.inv env s hreach).2.2 e he).2.1, ?_⟩
  intro t index type src hidx hc hs hf hty
  refine ⟨_, Read_dnode_full env t index type src hidx hc hs hf, rfl, ?_⟩
  dsimp only
  unfold cached
  rw [if_pos hty]
  dsimp only
  rw [map_find_map_set]; simp

theorem C4_record_cache_invariant_witness :
    (∀ e ∈ Demo.s5.m_cache, e.2.type ≠ DMU_OT_PLAIN_FILE_CONTENTS) ∧
    (∃ r, Read_dnode Demo.env Demo.s5 3 false DMU_OT_NONE = some r ∧
      r.ret.2 = some (stamped Demo.env Demo.meta_dnode 3) ∧
      map_find r.s.m_cache 3 = some (stamped Demo.env Demo.meta_dnode 3)) :=
  have h := C4_record_cache_invariant Demo.env Demo.s5
    (Reachable.Read_zap 5 DMU_OT_NONE 1000
      (Reachable.Init Demo.bp (Reachable.new objset_phys_t.zero))
      (show Read_zap Demo.env Demo.s0 5 DMU_OT_NONE 1000 = some Demo.r5 from rfl))
  ⟨h.1, h.2 Demo.s5 3 DMU_OT_NONE Demo.meta_dnode (by decide) rfl rfl (by decide) (by decide)⟩

/-- C5: when `index` has no entry in `m_objdir` and the record read of `Read_zap`
(ResolveObject) succeeds with record `d`, the call constructs a `ZapObject` and
calls its `Init` on `d` if and only if the type of `d` is one of the nineteen
listed types.  For every other type (plain file contents is one) it returns
false, stores no pointer, makes no `new ZapObject` and no `ZapObject::Init`
call, and leaves `m_objdir` as it was. -/
theorem C5_resolve_object_allow_list (env : Env) (s : ObjectSet) (index : Nat) (type : Nat)
    (addr : Nat) (r0 : Outcome (Bool × Option dnode_phys_t)) (d : dnode_phys_t)
    (hmiss : map_find s.m_objdir index = none)
    (hrec : Read_dnode env s index false type = some r0)
    (hok : r0.ret = (true, some d)) :
    ∃ r, Read_zap env s index type addr = some r ∧
      ((Event.zap_new addr ∈ r.trace ∧ Event.zap_init addr d ∈ r.trace) ↔
        d.type ∈ [DMU_OT_OBJECT_DIRECTORY, DMU_OT_DSL_DIR_CHILD_MAP, DMU_OT_DSL_DS_SNAP_MAP,
           DMU_OT_DSL_PROPS, DMU_OT_DIRECTORY_CONTENTS, DMU_OT_MASTER_NODE,
           DMU_OT_UNLINKED_SET, DMU_OT_ZVOL_PROP, DMU_OT_ZAP_OTHER, DMU_OT_ERROR_LOG,
           DMU_OT_POOL_PROPS, DMU_OT_DSL_PERMS, DMU_OT_NEXT_CLONES, DMU_OT_SCRUB_QUEUE,
           DMU_OT_USERGROUP_USED, DMU_OT_USERGROUP_QUOTA, DMU_OT_USERREFS, DMU_OT_DDT_ZAP,
           DMU_OT_DDT_STATS]) ∧
      (d.type ∉ [DMU_OT_OBJECT_DIRECTORY, DMU_OT_DSL_DIR_CHILD_MAP, DMU_OT_DSL_DS_SNAP_MAP,
           DMU_OT_DSL_PROPS, DMU_OT_DIRECTORY_CONTENTS, DMU_OT_MASTER_NODE,
           DMU_OT_UNLINKED_SET, DMU_OT_ZVOL_PROP, DMU_OT_ZAP_OTHER, DMU_OT_ERROR_LOG,
           DMU_OT_POOL_PROPS, DMU_OT_DSL_PERMS, DMU_OT_NEXT_CLONES, DMU_OT_SCRUB_QUEUE,
           DMU_OT_USERGROUP_USED, DMU_OT_USERGROUP_QUOTA, DMU_OT_USERREFS, DMU_OT_DDT_ZAP,
           DMU_OT_DDT_STATS] →
        r.ret = (false, none) ∧ r.s.m_objdir = s.m_objdir ∧
        (∀ a, Event.zap_new a ∉ r.trace) ∧ (∀ a x, Event.zap_init a x ∉ r.trace)) ∧
      DMU_OT_PLAIN_FILE_CONTENTS ∉
        [DMU_OT_OBJECT_DIRECTORY, DMU_OT_DSL_DIR_CHILD_MAP, DMU_OT_DSL_DS_SNAP_MAP,
           DMU_OT_DSL_PROPS, DMU_OT_DIRECTORY_CONTENTS, DMU_OT_MASTER_NODE,
           DMU_OT_UNLINKED_SET, DMU_OT_ZVOL_PROP, DMU_OT_ZAP_OTHER, DMU_OT_ERROR_LOG,
           DMU_OT_POOL_PROPS, DMU_OT_DSL_PERMS, DMU_OT_NEXT_CLONES, DMU_OT_SCRUB_QUEUE,
           DMU_OT_USERGROUP_USED, DMU_OT_USERGROUP_QUOTA, DMU_OT_USERREFS, DMU_OT_DDT_ZAP,
           DMU_OT_DDT_STATS] := by
  have htr : ∀ e ∈ r0.trace, ∃ src sz off, e = Event.read_at src sz off := by
    intro e he
    rcases Read_dnode_trace env s index false type r0 hrec with h | ⟨src, _, _, h⟩
    · rw [h] at he; cases he
    · rw [h] at he
      exact ⟨src, _, _, List.mem_singleton.mp he⟩
  have hno_new : ∀ a, Event.zap_new a ∉ r0.trace := by
    intro a ha
    obtain ⟨_, _, _, h⟩ := htr _ ha
    cases h
  have hno_init : ∀ a x, Event.zap_init a x ∉ r0.trace := by
    intro a x ha
    obtain ⟨_, _, _, h⟩ := htr _ ha
    cases h
  have hframe := (Read_dnode_frame env s index false type r0 hrec).1
  rw [← is_zap_type_iff]
  cases ht : is_zap_type d.type with
  | false =>
    refine ⟨_, Read_zap_not_zap env s index type addr r0 d hmiss hrec hok ht, ?_, ?_, by decide⟩
    · constructor
      · rintro ⟨h1, _⟩
        dsimp only at h1
        rcases List.mem_append.mp h1 with h | h
        · exact absurd h (hno_new addr)
        · simp at h
      · intro h; cases h
    · intro _
      refine ⟨rfl, hframe, ?_, ?_⟩
      · intro a h
        rcases List.mem_append.mp h with h | h
        · exact hno_new a h
        · simp at h
      · intro a x h
        rcases List.mem_append.mp h with h | h
        · exact hno_init a x h
        · simp at h
  | true =>
    cases hi : (env.ZapInit d).1 with
    | false =>
      refine ⟨_, Read_zap_init_failed env s index type addr r0 d hmiss hrec hok ht hi,
        ?_, ?_, by decide⟩
      · constructor
        · intro _; rfl
        · intro _; simp
      · intro h; exact absurd rfl h
    | true =>
      refine ⟨_, Read_zap_built env s index type addr r0 d hmiss hrec hok ht hi,
        ?_, ?_, by decide⟩
      · constructor
        · intro _; rfl
        · intro _; simp
      · intro h; exact absurd rfl h

theorem C5_resolve_object_allow_list_witness :
    ∃ r, Read_zap Demo.env Demo.s0 2 DMU_OT_NONE 1000 = some r ∧
      r.ret = (false, none) ∧ r.s.m_objdir = Demo.s0.m_objdir ∧
      (∀ a, Event.zap_new a ∉ r.trace) ∧ (∀ a x, Event.zap_init a x ∉ r.trace) := by
  obtain ⟨r, h1, _, h2, _⟩ :=
    C5_resolve_object_allow_list Demo.env Demo.s0 2 DMU_OT_NONE 1000 Demo.r2
      ⟨DMU_OT_PLAIN_FILE_CONTENTS, 2, 2⟩ rfl rfl rfl
  exact ⟨r, h1, h2 (by decide)⟩

/-- C6: when `Read_zap` (ResolveObject) succeeds for `index`, a `Read_zap` for
the same index made right after it, with any expected type, succeeds as well,
stores the very same object (same address, same entries), makes no call at all
(no record read, no `new ZapObject`, no `ZapObject::Init`) and leaves the object
set, so both caches, unchanged. -/
theorem C6_resolve_object_twice (env : Env) (s : ObjectSet) (index : Nat) (type : Nat)
    (addr : Nat) (r1 : Outcome (Bool × Option ZapObject))
    (h : Read_zap env s index type addr = some r1) (hok : r1.ret.1 = true) :
    ∃ z, r1.ret = (true, some z) ∧
      ∀ type2 addr2, Read_zap env r1.s index type2 addr2 =
        some { ret := (true, some z), s := r1.s, trace := [] } := by
  obtain ⟨z, hz, hfind⟩ := Read_zap_ok_some env s index type addr r1 h hok
  exact ⟨z, Prod.ext hok hz, fun type2 addr2 => Read_zap_hit env r1.s index type2 addr2 z hfind⟩

theorem C6_resolve_object_twice_witness :
    ∃ z, Demo.r5.ret = (true, some z) ∧
      ∀ type2 addr2, Read_zap Demo.env Demo.r5.s 5 type2 addr2 =
        some { ret := (true, some z), s := Demo.r5.s, trace := [] } :=
  C6_resolve_object_twice Demo.env Demo.s0 5 DMU_OT_NONE 1000 Demo.r5 rfl rfl

/-- C7: `GetIndex(name, parent)` calls `Read_zap` (ResolveObject) on the parent
without expected type.  When that fails it returns `2^64 - 1`; when it succeeds
with object `z` it returns `2^64 - 1` if `z.Lookup name` finds nothing and
otherwise exactly the value `Lookup` yields.  In each case the object set is the
one `Read_zap` left. -/
theorem C7_get_index (env : Env) (s : ObjectSet) (name : String) (parent_index : Nat)
    (addr : Nat) (r : Outcome (Bool × Option ZapObject))
    (h : Read_zap env s parent_index DMU_OT_NONE addr = some r) :
    UINT64_MAX = 2 ^ 64 - 1 ∧
    (r.ret.1 = false →
      GetIndex env s name parent_index addr =
        some { ret := UINT64_MAX, s := r.s, trace := r.trace }) ∧
    (r.ret.1 = true → ∃ z, r.ret.2 = some z ∧
      (z.Lookup name = none →
        GetIndex env s name parent_index addr =
          some { ret := UINT64_MAX, s := r.s,
                 trace := r.trace ++ [Event.zap_lookup z.addr name] }) ∧
      (∀ v, z.Lookup name = some v →
        GetIndex env s name parent_index addr =
          some { ret := v, s := r.s,
                 trace := r.trace ++ [Event.zap_lookup z.addr name] })) := by
  refine ⟨rfl, ?_, ?_⟩
  · intro hf
    unfold GetIndex
    rw [h]; dsimp only; rw [if_pos hf]
  · intro hok
    obtain ⟨z, hz, _⟩ := Read_zap_ok_some env s parent_index DMU_OT_NONE addr r h hok
    have hnf : ¬ (r.ret.1 = false) := by rw [hok]; simp
    refine ⟨z, hz, ?_, ?_⟩
    · intro hl
      unfold GetIndex
      rw [h]; dsimp only; rw [if_neg hnf, hz]; dsimp only; rw [hl]
    · intro v hl
      unfold GetIndex
      rw [h]; dsimp only; rw [if_neg hnf, hz]; dsimp only; rw [hl]

theorem C7_get_index_witness :
    Option.map Outcome.ret (GetIndex Demo.env Demo.s0 "root_dataset" 5 1000) = some 12 ∧
    Option.map Outcome.ret (GetIndex Demo.env Demo.s0 "missing" 5 1000) = some (2 ^ 64 - 1) ∧
    Option.map Outcome.ret (GetIndex Demo.env Demo.s0 "root_dataset" 8 1000) =
      some (2 ^ 64 - 1) := by
  have hr : Read_zap Demo.env Demo.s0 5 DMU_OT_NONE 1000 = some Demo.r5 := rfl
  have h8 : Read_zap Demo.env Demo.s0 8 DMU_OT_NONE 1000 =
      some { ret := (false, none), s := Demo.s0, trace := [] } := rfl
  obtain ⟨z1, hz1, _, hv1⟩ :=
    (C7_get_index Demo.env Demo.s0 "root_dataset" 5 1000 Demo.r5 hr).2.2 rfl
  obtain ⟨z2, hz2, hn2, _⟩ :=
    (C7_get_index Demo.env Demo.s0 "missing" 5 1000 Demo.r5 hr).2.2 rfl
  have e1 : z1 = Demo.root_zap := (Option.some.inj hz1).symm
  have e2 : z2 = Demo.root_zap := (Option.some.inj hz2).symm
  subst e1; subst e2
  refine ⟨?_, ?_, ?_⟩
  · rw [hv1 12 (by decide)]; rfl
  · rw [hn2 (by decide)]; rfl
  · rw [(C7_get_index Demo.env Demo.s0 "root_dataset" 8 1000 _ h8).2.1 rfl]; rfl

/-- C8 as stated fails: `Read_nvl` (ReadBlob) on record 5 of the demo pool, an
object directory that is not yet in `m_cache`, fails, but to learn the type it
has read the record itself: its trace holds a read-at-offset call on
`m_reader`. -/
theorem C8_read_blob_no_read_counterexample :
    ¬ (∀ (env : Env) (s : ObjectSet) (index : Nat) (nvl : NameValueList)
        (r0 : Outcome (Bool × Option dnode_phys_t)) (d : dnode_phys_t),
        Read_dnode env s index false DMU_OT_NONE = some r0 → r0.ret = (true, some d) →
        d.type ≠ DMU_OT_PACKED_NVLIST →
        ∃ r, Read_nvl env s index nvl = some r ∧ r.ret.1 = false ∧
          (∀ src size offset, Event.read_at src size offset ∉ r.trace) ∧
          (∀ buff size, Event.nvl_init buff size ∉ r.trace)) := by
  intro h
  obtain ⟨r, hr, _, hno, _⟩ := h Demo.env Demo.s0 5 ⟨[]⟩
    { ret := (true, some ⟨DMU_OT_OBJECT_DIRECTORY, 5, 5⟩)
      s := { Demo.s0 with m_cache := [(5, ⟨DMU_OT_OBJECT_DIRECTORY, 5, 5⟩)] }
      trace := [Event.read_at Demo.meta_dnode 512 2560] }
    ⟨DMU_OT_OBJECT_DIRECTORY, 5, 5⟩ rfl rfl (by decide)
  have hr2 : Read_nvl Demo.env Demo.s0 5 ⟨[]⟩ =
      some { ret := (false, ⟨[]⟩)
             s := { Demo.s0 with m_cache := [(5, ⟨DMU_OT_OBJECT_DIRECTORY, 5, 5⟩)] }
             trace := [Event.read_at Demo.meta_dnode 512 2560] } := rfl
  rw [hr2] at hr
  have hr3 := Option.some.inj hr
  apply hno Demo.meta_dnode 512 2560
  rw [← hr3]
  exact List.mem_singleton.mpr rfl

/-- C8, amended: when the record of `index` is obtainable (`Read_dnode` without
expected type succeeds with record `d`) and `d` is not a packed nvlist,
`Read_nvl` (ReadBlob) returns false and leaves `nvl` untouched; it makes exactly
the calls of that `Read_dnode` and leaves the object set that `Read_dnode`
leaves.  So it constructs no `BlockReader` over the record, reads none of the
record's data and never calls `NameValueList::Init`; the one call it can make
is the read of the record itself on `m_reader`, made when `index` is not in
`m_cache`, and it makes no call at all when `index` is in `m_cache`. -/
theorem C8_read_blob_wrong_type (env : Env) (s : ObjectSet) (index : Nat)
    (nvl : NameValueList) (r0 : Outcome (Bool × Option dnode_phys_t)) (d : dnode_phys_t)
    (h0 : Read_dnode env s index false DMU_OT_NONE = some r0)
    (hret : r0.ret = (true, some d)) (hty : d.type ≠ DMU_OT_PACKED_NVLIST) :
    Read_nvl env s index nvl = some { ret := (false, nvl), s := r0.s, trace := r0.trace } ∧
    (r0.trace = [] ∨
      ∃ src, s.m_reader = some src ∧ map_find s.m_cache index = none ∧
        r0.trace = [Event.read_at src env.sizeof_dnode (u64 (index * env.sizeof_dnode))]) ∧
    ((∃ c, map_find s.m_cache index = some c) → r0.trace = []) := by
  have h1 := Read_dnode_mismatch env s index DMU_OT_PACKED_NVLIST r0 d h0 hret
    (by decide) hty
  refine ⟨?_, Read_dnode_trace env s index false DMU_OT_NONE r0 h0, ?_⟩
  · unfold Read_nvl
    rw [h1]
    rfl
  · rintro ⟨c, hc⟩
    rcases Read_dnode_trace env s index false DMU_OT_NONE r0 h0 with h | ⟨_, _, hn, _⟩
    · exact h
    · rw [hc] at hn; cases hn

theorem C8_read_blob_wrong_type_witness :
    Read_nvl Demo.env Demo.s5 5 ⟨[("old", 1)]⟩ =
      some { ret := (false, ⟨[("old", 1)]⟩), s := Demo.s5, trace := [] } :=
  (C8_read_blob_wrong_type Demo.env Demo.s5 5 ⟨[("old", 1)]⟩
    { ret := (true, some ⟨DMU_OT_OBJECT_DIRECTORY, 5, 5⟩), s := Demo.s5, trace := [] }
    ⟨DMU_OT_OBJECT_DIRECTORY, 5, 5⟩ rfl rfl (by decide)).1

/-- C9: `Init` returns true if and only if `Pool::Read` succeeds and the header
it returns has a metadata record of type `DMU_OT_DNODE`.  A failed `Pool::Read`
leaves the all-zero header in `m_objset` and makes `Init` return false.  Whenever
`Init` returns false, `m_count` is 0, both caches are empty and `m_reader` is
null, whatever the object set was before. -/
theorem C9_init_result (env : Env) (s : ObjectSet) (bp : blkptr_t) :
    ((Init env s bp).ret = true ↔
      ∃ h, env.pool_read bp = some h ∧ h.meta_dnode.type = DMU_OT_DNODE) ∧
    (env.pool_read bp = none →
      (Init env s bp).s.m_objset = objset_phys_t.zero ∧ (Init env s bp).ret = false) ∧
    ((Init env s bp).ret = false →
      (Init env s bp).s.m_count = 0 ∧ (Init env s bp).s.m_cache = [] ∧
      (Init env s bp).s.m_objdir = [] ∧ (Init env s bp).s.m_reader = none) := by
  have hzero : objset_phys_t.zero.meta_dnode.type ≠ DMU_OT_DNODE := by decide
  by_cases h : (read_header env bp).meta_dnode.type = DMU_OT_DNODE
  · rw [Init_succeeded env s bp h]
    refine ⟨⟨fun _ => ?_, fun _ => rfl⟩, ?_, ?_⟩
    · cases hp : env.pool_read bp with
      | none =>
        unfold read_header at h
        rw [hp] at h
        exact absurd h hzero
      | some hd =>
        unfold read_header at h
        rw [hp] at h
        exact ⟨hd, rfl, h⟩
    · intro hp
      unfold read_header at h
      rw [hp] at h
      exact absurd h hzero
    · intro hf; simp at hf
  · rw [Init_failed env s bp h]
    refine ⟨⟨fun hf => ?_, ?_⟩, ?_, ?_⟩
    · simp at hf
    · rintro ⟨hd, hp, ht⟩
      unfold read_header at h
      rw [hp] at h
      exact absurd ht h
    · intro hp
      refine ⟨?_, rfl⟩
      dsimp only
      unfold read_header
      rw [hp]
    · intro _
      exact ⟨rfl, rfl, rfl, rfl⟩

/-- C10: right after any call of `Init`, successful or not and whatever the
object set held before, `m_cache` and `m_objdir` are empty.  Hence a `Read_zap`
(ResolveObject) for any index `K` made right after it is defined and cannot
return an object resolved earlier: when it succeeds it has read record `K` from
the new reader (one read at offset `K * sizeof(dnode_phys_t)`), found its type
on the allow-list, constructed a new `ZapObject` at the address `new` handed
out in this call and initialised it from the record, in this order. -/
theorem C10_reinit_discards_caches (env : Env) (s : ObjectSet) (bp : blkptr_t) :
    (Init env s bp).s.m_cache = [] ∧ (Init env s bp).s.m_objdir = [] ∧
    ∀ K type addr, ∃ r, Read_zap env (Init env s bp).s K type addr = some r ∧
      (r.ret.1 = true → ∃ src,
        (Init env s bp).s.m_reader = some src ∧
        r.trace = [Event.read_at src env.sizeof_dnode (K * env.sizeof_dnode),
                   Event.zap_new addr, Event.zap_init addr (stamped env src K)] ∧
        is_zap_type (stamped env src K).type = true ∧
        (env.ZapInit (stamped env src K)).1 = true ∧
        r.ret.2 = some { addr := addr, entries := (env.ZapInit (stamped env src K)).2 }) := by
  obtain ⟨hc, hd⟩ := Init_caches env s bp
  refine ⟨hc, hd, ?_⟩
  intro K type addr
  have hinv := RecordInv_Init env s bp
  obtain ⟨r, hr⟩ := Read_zap_defined env (Init env s bp).s K type addr
    (Read_dnode_defined env (Init env s bp).s K false type hinv)
  refine ⟨r, hr, ?_⟩
  intro hok
  rcases Read_zap_cases env _ K type addr r hr with
    ⟨z, hz, _⟩ | ⟨r0, _, _, _, hr1⟩ | ⟨r0, dn, _, _, _, _, hr1⟩ |
    ⟨r0, dn, _, _, _, _, _, hr1⟩ | ⟨r0, dn, _, h0, hret, ht, hi, hr1⟩
  · rw [hd] at hz; simp [map_find] at hz
  · subst hr1; simp at hok
  · subst hr1; simp at hok
  · subst hr1; simp at hok
  · rcases Read_dnode_cases env _ K false type r0 h0 with
      ⟨hr0, _⟩ | ⟨c, _, hcc, _⟩ | ⟨src, _, _, _, _, hr0⟩ | ⟨src, hidx, _, hs, _, hr0⟩
    · subst hr0; simp at hret
    · rw [hc] at hcc; simp [map_find] at hcc
    · subst hr0; simp at hret
    · have hoff := (offset_in_range env _ src K hinv hs hidx).1
      subst hr0
      have hdn : stamped env src K = dn := by
        have := congrArg Prod.snd hret
        simpa using this
      subst hdn
      subst hr1
      refine ⟨src, hs, ?_, ht, hi, rfl⟩
      dsimp only
      rw [hoff]
      rfl

/-- C11: each query (`Read_dnode`, `Read_zap`, `GetIndex`, `Read_nvl`), whatever
it returns, leaves an object set that keeps every entry `m_cache` and `m_objdir`
held before the call, under the same key with the same value, and has the same
`m_count` (`Keeps`).  A `Read_dnode` that fails through a short read leaves the
object set exactly as it was, so it adds no entry to either cache. -/
theorem C11_queries_keep_caches (env : Env) (s : ObjectSet) :
    (∀ index dn_null type r, Read_dnode env s index dn_null type = some r → Keeps s r.s) ∧
    (∀ index type addr r, Read_zap env s index type addr = some r → Keeps s r.s) ∧
    (∀ name parent_index addr r,
      GetIndex env s name parent_index addr = some r → Keeps s r.s) ∧
    (∀ index nvl r, Read_nvl env s index nvl = some r → Keeps s r.s) ∧
    (∀ index type src, index < s.m_count → map_find s.m_cache index = none →
      s.m_reader = some src → ¬ full_read env src index →
      ∃ r, Read_dnode env s index false type = some r ∧ r.ret.1 = false ∧ r.s = s) :=
  ⟨fun index dn_null type r h => Read_dnode_keeps env s index dn_null type r h,
   fun index type addr r h => Read_zap_keeps env s index type addr r h,
   fun name parent_index addr r h => GetIndex_keeps env s name parent_index addr r h,
   fun index nvl r h => Read_nvl_keeps env s index nvl r h,
   fun index type src hidx hc hs hf =>
     ⟨_, Read_dnode_short env s index type src hidx hc hs hf, rfl, rfl⟩⟩

theorem C11_queries_keep_caches_witness :
    ∃ r, Read_nvl Demo.env Demo.s5 3 ⟨[]⟩ = some r ∧ r.ret.1 = true ∧
      map_find r.s.m_cache 5 = some ⟨DMU_OT_OBJECT_DIRECTORY, 5, 5⟩ ∧
      map_find r.s.m_objdir 5 = some Demo.root_zap ∧ r.s.m_count = Demo.s5.m_count := by
  have h : Read_nvl Demo.env Demo.s5 3 ⟨[]⟩ =
      some { ret := (true, ⟨[]⟩)
             s := { Demo.s5 with
               m_cache := [(3, ⟨DMU_OT_PACKED_NVLIST, 3, 3⟩),
                           (5, ⟨DMU_OT_OBJECT_DIRECTORY, 5, 5⟩)] }
             trace := [Event.read_at Demo.meta_dnode 512 1536,
                       Event.reader_new ⟨DMU_OT_PACKED_NVLIST, 3, 3⟩,
                       Event.get_data_size ⟨DMU_OT_PACKED_NVLIST, 3, 3⟩,
                       Event.read_at ⟨DMU_OT_PACKED_NVLIST, 3, 3⟩ 4096 0,
                       Event.nvl_init [0] 4096,
                       Event.reader_delete ⟨DMU_OT_PACKED_NVLIST, 3, 3⟩] } := rfl
  have hk := (C11_queries_keep_caches Demo.env Demo.s5).2.2.2.1 3 ⟨[]⟩ _ h
  exact ⟨_, h, rfl, hk.1 5 _ rfl, hk.2.1 5 _ rfl, hk.2.2.1⟩

/-- C12: after a successful `Init`, `m_reader` is the reader over the metadata
record of the header and `m_count` is the reader's data size divided by
`sizeof(dnode_phys_t)` with truncating division: `m_count` whole records fit in
the data and one more does not, so a trailing part of a record is not counted.
Every object set reached from there by queries alone (no further `Init`) has
the same `m_count`. -/
theorem C12_record_count (env : Env) (s : ObjectSet) (bp : blkptr_t)
    (h : (Init env s bp).ret = true) :
    (Init env s bp).s.m_reader = some (read_header env bp).meta_dnode ∧
    (Init env s bp).s.m_count =
      u64 (env.GetDataSize (read_header env bp).meta_dnode) / env.sizeof_dnode ∧
    (0 < env.sizeof_dnode →
      (Init env s bp).s.m_count * env.sizeof_dnode ≤
        u64 (env.GetDataSize (read_header env bp).meta_dnode) ∧
      u64 (env.GetDataSize (read_header env bp).meta_dnode) <
        ((Init env s bp).s.m_count + 1) * env.sizeof_dnode) ∧
    (∀ t, Queried env (Init env s bp).s t → t.m_count = (Init env s bp).s.m_count) := by
  have hq : ∀ t, Queried env (Init env s bp).s t → t.m_count = (Init env s bp).s.m_count :=
    fun t ht => (Queried.keeps env _ t ht).2.2.1
  refine ⟨?_, ?_, ?_, hq⟩
  · by_cases ht : (read_header env bp).meta_dnode.type = DMU_OT_DNODE
    · rw [Init_succeeded env s bp ht]
    · rw [Init_failed env s bp ht] at h; simp at h
  · by_cases ht : (read_header env bp).meta_dnode.type = DMU_OT_DNODE
    · rw [Init_succeeded env s bp ht]
    · rw [Init_failed env s bp ht] at h; simp at h
  · intro hpos
    by_cases ht : (read_header env bp).meta_dnode.type = DMU_OT_DNODE
    · rw [Init_succeeded env s bp ht]
      dsimp only
      exact ⟨Nat.div_mul_le_self _ _,
        (Nat.div_lt_iff_lt_mul hpos).mp (Nat.lt_succ_self _)⟩
    · rw [Init_failed env s bp ht] at h; simp at h

theorem C12_record_count_witness :
    (Init Demo.env_tail (ObjectSet.new objset_phys_t.zero) Demo.bp).ret = true ∧
    (Init Demo.env_tail (ObjectSet.new objset_phys_t.zero) Demo.bp).s.m_count = 4100 / 512 ∧
    (∀ t, Queried Demo.env_tail
        (Init Demo.env_tail (ObjectSet.new objset_phys_t.zero) Demo.bp).s t →
      t.m_count = 8) :=
  have h := C12_record_count Demo.env_tail (ObjectSet.new objset_phys_t.zero) Demo.bp rfl
  ⟨rfl, h.2.1, h.2.2.2⟩

/-- C13: on a reachable object set, whenever `Read_dnode` (ReadRecord) obtains
the record of an index below `m_count`, from `m_cache` or by a full read, the
record it stores in `*dn` has `pad3[0]` equal to the index, whatever the
expected type and the returned flag; the index fits the 64-bit field, so
nothing is lost.  Every entry of `m_cache`, before and after the call, carries
its own key in `pad3[0]`. -/
theorem C13_self_index (env : Env) (s : ObjectSet) (index : Nat) (type : Nat)
    (hreach : Reachable env s) (hidx : index < s.m_count)
    (hread : (∃ c, map_find s.m_cache index = some c) ∨
      (∃ src, s.m_reader = some src ∧ full_read env src index)) :
    ∃ r d, Read_dnode env s index false type = some r ∧ r.ret.2 = some d ∧
      d.pad3_0 = u64 index ∧ u64 index = index ∧
      (∀ e ∈ s.m_cache, e.2.pad3_0 = e.1) ∧ (∀ e ∈ r.s.m_cache, e.2.pad3_0 = e.1) := by
  have hinv := Reachable.inv env s hreach
  have hu := index_lt_of_inv env s index hinv hidx
  cases hc : map_find s.m_cache index with
  | some c =>
    have h1 := Read_dnode_hit env s index type c hidx hc
    have hself := cache_self_index env s hinv (index, c) (map_find_mem _ _ _ hc)
    refine ⟨_, c, h1, rfl, ?_, hu, cache_self_index env s hinv, cache_self_index env s hinv⟩
    rw [hu]; exact hself
  | none =>
    rcases hread with ⟨c, hc1⟩ | ⟨src, hs, hf⟩
    · rw [hc] at hc1; cases hc1
    · have h1 := Read_dnode_full env s index type src hidx hc hs hf
      refine ⟨_, stamped env src index, h1, rfl, rfl, hu, cache_self_index env s hinv, ?_⟩
      exact cache_self_index env _ (Reachable.inv env _ (Reachable.Read_dnode index false type hreach h1))

theorem C13_self_index_witness :
    ∃ r d, Read_dnode Demo.env Demo.s0 5 false DMU_OT_PACKED_NVLIST = some r ∧
      r.ret.2 = some d ∧ d.pad3_0 = u64 5 ∧ u64 5 = 5 ∧
      (∀ e ∈ Demo.s0.m_cache, e.2.pad3_0 = e.1) ∧ (∀ e ∈ r.s.m_cache, e.2.pad3_0 = e.1) :=
  C13_self_index Demo.env Demo.s0 5 DMU_OT_PACKED_NVLIST
    (Reachable.Init Demo.bp (Reachable.new objset_phys_t.zero)) (by decide)
    (Or.inr ⟨Demo.meta_dnode, rfl, by decide⟩)

/-- C14: in every reachable object set (constructed, then any sequence of
`Init`, `Read_dnode`, `Read_zap`, `GetIndex`, `Read_nvl`) every entry of
`m_objdir` has a key below `m_count`, and `m_cache` holds a record under that
key whose type is one of the nineteen types the `switch` of `Read_zap` lets
through. -/
theorem C14_objdir_invariant (env : Env) (s : ObjectSet) (hreach : Reachable env s) :
    ∀ e ∈ s.m_objdir, e.1 < s.m_count ∧
      ∃ d, map_find s.m_cache e.1 = some d ∧
        d.type ∈ [DMU_OT_OBJECT_DIRECTORY, DMU_OT_DSL_DIR_CHILD_MAP, DMU_OT_DSL_DS_SNAP_MAP,
           DMU_OT_DSL_PROPS, DMU_OT_DIRECTORY_CONTENTS, DMU_OT_MASTER_NODE,
           DMU_OT_UNLINKED_SET, DMU_OT_ZVOL_PROP, DMU_OT_ZAP_OTHER, DMU_OT_ERROR_LOG,
           DMU_OT_POOL_PROPS, DMU_OT_DSL_PERMS, DMU_OT_NEXT_CLONES, DMU_OT_SCRUB_QUEUE,
           DMU_OT_USERGROUP_USED, DMU_OT_USERGROUP_QUOTA, DMU_OT_USERREFS, DMU_OT_DDT_ZAP,
           DMU_OT_DDT_STATS] := by
  intro e he
  obtain ⟨hlt, d, hfind, hty⟩ := Reachable.objdir_inv env s hreach e he
  exact ⟨hlt, d, hfind, (is_zap_type_iff d.type).mp hty⟩

theorem C14_objdir_invariant_witness :
    (5 : Nat) < Demo.s5.m_count ∧
      ∃ d, map_find Demo.s5.m_cache 5 = some d ∧
        d.type ∈ [DMU_OT_OBJECT_DIRECTORY, DMU_OT_DSL_DIR_CHILD_MAP, DMU_OT_DSL_DS_SNAP_MAP,
           DMU_OT_DSL_PROPS, DMU_OT_DIRECTORY_CONTENTS, DMU_OT_MASTER_NODE,
           DMU_OT_UNLINKED_SET, DMU_OT_ZVOL_PROP, DMU_OT_ZAP_OTHER, DMU_OT_ERROR_LOG,
           DMU_OT_POOL_PROPS, DMU_OT_DSL_PERMS, DMU_OT_NEXT_CLONES, DMU_OT_SCRUB_QUEUE,
           DMU_OT_USERGROUP_USED, DMU_OT_USERGROUP_QUOTA, DMU_OT_USERREFS, DMU_OT_DDT_ZAP,
           DMU_OT_DDT_STATS] :=
  C14_objdir_invariant Demo.env Demo.s5
    (Reachable.Read_zap 5 DMU_OT_NONE 1000
      (Reachable.Init Demo.bp (Reachable.new objset_phys_t.zero))
      (show Read_zap Demo.env Demo.s0 5 DMU_OT_NONE 1000 = some Demo.r5 from rfl))
    (5, Demo.root_zap) (List.mem_singleton.mpr rfl)

/-- C15: when `index` has no entry in `m_objdir`, the record read of `Read_zap`
(ResolveObject) succeeds with record `d` and the type of `d` passes the
`switch`, the call returns true if and only if `ZapObject::Init` on `d` returns
true.  When `Init` fails the call returns false and `m_objdir` is what it was,
without an entry for `index`.  When `Init` succeeds the call stores the object
built at the address `new` returned, and `m_objdir` afterwards maps `index` to
that object and every other key as before: one entry more, all old entries
kept. -/
theorem C15_resolve_object_init (env : Env) (s : ObjectSet) (index : Nat) (type : Nat)
    (addr : Nat) (r0 : Outcome (Bool × Option dnode_phys_t)) (d : dnode_phys_t)
    (hmiss : map_find s.m_objdir index = none)
    (hrec : Read_dnode env s index false type = some r0)
    (hok : r0.ret = (true, some d))
    (hty : is_zap_type d.type = true) :
    ∃ r, Read_zap env s index type addr = some r ∧
      (r.ret.1 = true ↔ (env.ZapInit d).1 = true) ∧
      ((env.ZapInit d).1 = false →
        r.ret.1 = false ∧ r.s.m_objdir = s.m_objdir ∧ map_find r.s.m_objdir index = none) ∧
      ((env.ZapInit d).1 = true →
        r.ret = (true, some { addr := addr, entries := (env.ZapInit d).2 }) ∧
        (∀ j, map_find r.s.m_objdir j =
          if index = j then some { addr := addr, entries := (env.ZapInit d).2 }
          else map_find s.m_objdir j) ∧
        r.s.m_objdir.length = s.m_objdir.length + 1 ∧
        (∀ e ∈ s.m_objdir, e ∈ r.s.m_objdir)) := by
  have hframe := (Read_dnode_frame env s index false type r0 hrec).1
  cases hi : (env.ZapInit d).1 with
  | false =>
    refine ⟨_, Read_zap_init_failed env s index type addr r0 d hmiss hrec hok hty hi, ?_, ?_, ?_⟩
    · simp
    · intro _
      refine ⟨rfl, hframe, ?_⟩
      dsimp only
      rw [hframe]; exact hmiss
    · intro h; cases h
  | true =>
    refine ⟨_, Read_zap_built env s index type addr r0 d hmiss hrec hok hty hi, ?_, ?_, ?_⟩
    · simp
    · intro h; cases h
    · intro _
      dsimp only
      rw [hframe]
      exact ⟨rfl, fun j => map_find_map_set _ _ _ j,
        length_map_set_of_absent _ _ _ hmiss,
        fun e he => mem_map_set_of_absent _ _ _ e hmiss he⟩

theorem C15_resolve_object_init_witness :
    ∃ r, Read_zap Demo.env Demo.s0 5 DMU_OT_NONE 1000 = some r ∧
      r.ret = (true, some Demo.root_zap) ∧
      (∀ j, map_find r.s.m_objdir j =
        if 5 = j then some Demo.root_zap else map_find Demo.s0.m_objdir j) ∧
      r.s.m_objdir.length = Demo.s0.m_objdir.length + 1 := by
  obtain ⟨r, h1, _, _, h2⟩ :=
    C15_resolve_object_init Demo.env Demo.s0 5 DMU_OT_NONE 1000
      { ret := (true, some ⟨DMU_OT_OBJECT_DIRECTORY, 5, 5⟩)
        s := { Demo.s0 with m_cache := [(5, ⟨DMU_OT_OBJECT_DIRECTORY, 5, 5⟩)] }
        trace := [Event.read_at Demo.meta_dnode 512 2560] }
      ⟨DMU_OT_OBJECT_DIRECTORY, 5, 5⟩ rfl rfl rfl rfl
  obtain ⟨h3, h4, h5, _⟩ := h2 rfl
  exact ⟨r, h1, h3, h4, h5⟩

/-- C17: `Read_zap` (ResolveObject) looks at the expected type only when `index`
has no entry in `m_objdir`.  With an entry, the call returns true and the cached
object for every expected type, without any call on a collaborator and without
changing the object set.  Without an entry, when the record is obtainable and
its type is not the expected one (and the expected type is not `DMU_OT_NONE`),
the call returns false and stores no pointer. -/
theorem C17_resolve_object_expected_type (env : Env) (s : ObjectSet) (index : Nat)
    (type : Nat) (addr : Nat) :
    (∀ z, map_find s.m_objdir index = some z →
      Read_zap env s index type addr = some { ret := (true, some z), s := s, trace := [] }) ∧
    (map_find s.m_objdir index = none →
      ∀ r0 d, Read_dnode env s index false DMU_OT_NONE = some r0 →
        r0.ret = (true, some d) → type ≠ DMU_OT_NONE → d.type ≠ type →
        Read_zap env s index type addr =
          some { ret := (false, none), s := r0.s, trace := r0.trace }) := by
  refine ⟨fun z hz => Read_zap_hit env s index type addr z hz, ?_⟩
  intro hmiss r0 d h0 hret hne hty
  have h1 := Read_dnode_mismatch env s index type r0 d h0 hret hne hty
  have h2 := Read_zap_read_failed env s index type addr
    { ret := (false, some d), s := r0.s, trace := r0.trace } hmiss h1 rfl
  exact h2

theorem C17_resolve_object_expected_type_witness :
    (stamped Demo.env Demo.meta_dnode 5).type ≠ DMU_OT_PACKED_NVLIST ∧
    Option.map Outcome.ret (Read_zap Demo.env Demo.s0 5 DMU_OT_PACKED_NVLIST 2000) =
      some (false, none) ∧
    Read_zap Demo.env Demo.s0 5 DMU_OT_NONE 1000 = some Demo.r5 ∧
    Read_zap Demo.env Demo.r5.s 5 DMU_OT_PACKED_NVLIST 2000 =
      some { ret := (true, some Demo.root_zap), s := Demo.r5.s, trace := [] } := by
  refine ⟨by decide, ?_, rfl, ?_⟩
  · rw [(C17_resolve_object_expected_type Demo.env Demo.s0 5 DMU_OT_PACKED_NVLIST 2000).2 rfl
      { ret := (true, some ⟨DMU_OT_OBJECT_DIRECTORY, 5, 5⟩)
        s := { Demo.s0 with m_cache := [(5, ⟨DMU_OT_OBJECT_DIRECTORY, 5, 5⟩)] }
        trace := [Event.read_at Demo.meta_dnode 512 2560] }
      ⟨DMU_OT_OBJECT_DIRECTORY, 5, 5⟩ rfl rfl (by decide) (by decide)]
    rfl
  · exact (C17_resolve_object_expected_type Demo.env Demo.r5.s 5 DMU_OT_PACKED_NVLIST 2000).1
      Demo.root_zap rfl

/-- C18: on a reachable object set, for every index below `m_count` (which is the
reader's data size divided by `sizeof(dnode_phys_t)`), the byte offset
`index * sizeof(dnode_phys_t)` is below `2^64`, so the 64-bit product does not
wrap, and `index * sizeof(dnode_phys_t) + sizeof(dnode_phys_t)` is at most the
reader's data size.  Every read `Read_dnode` (ReadRecord) issues is a read on
`m_reader` of exactly `sizeof(dnode_phys_t)` bytes at that offset, for an index
below `m_count`. -/
theorem C18_record_read_in_range (env : Env) (s : ObjectSet) (index : Nat)
    (hreach : Reachable env s) :
    (∀ src, s.m_reader = some src → index < s.m_count →
      s.m_count = u64 (env.GetDataSize src) / env.sizeof_dnode ∧
      index * env.sizeof_dnode < 2 ^ 64 ∧
      u64 (index * env.sizeof_dnode) = index * env.sizeof_dnode ∧
      index * env.sizeof_dnode + env.sizeof_dnode ≤ u64 (env.GetDataSize src)) ∧
    (∀ dn_null type r, Read_dnode env s index dn_null type = some r →
      ∀ e ∈ r.trace, ∃ src, s.m_reader = some src ∧ index < s.m_count ∧
        e = Event.read_at src env.sizeof_dnode (index * env.sizeof_dnode) ∧
        index * env.sizeof_dnode + env.sizeof_dnode ≤ u64 (env.GetDataSize src)) := by
  have hinv := Reachable.inv env s hreach
  constructor
  · intro src hs hidx
    obtain ⟨h1, h2⟩ := offset_in_range env s src index hinv hs hidx
    refine ⟨hinv.2.1 src hs, ?_, h1, h2⟩
    have h3 : u64 (env.GetDataSize src) < 2 ^ 64 := Nat.mod_lt _ (by norm_num)
    omega
  · intro dn_null type r h e he
    rcases Read_dnode_cases env s index dn_null type r h with
      ⟨hr, _⟩ | ⟨c, _, _, hr⟩ | ⟨src, hidx, _, hs, _, hr⟩ | ⟨src, hidx, _, hs, _, hr⟩
    · subst hr; cases he
    · subst hr; cases he
    · subst hr
      obtain ⟨h1, h2⟩ := offset_in_range env s src index hinv hs hidx
      refine ⟨src, hs, hidx, ?_, h2⟩
      rw [← h1]
      exact List.mem_singleton.mp he
    · subst hr
      obtain ⟨h1, h2⟩ := offset_in_range env s src index hinv hs hidx
      refine ⟨src, hs, hidx, ?_, h2⟩
      rw [← h1]
      exact List.mem_singleton.mp he

theorem C18_record_read_in_range_witness :
    (7 * Demo.env_tail.sizeof_dnode < 2 ^ 64 ∧
      7 * Demo.env_tail.sizeof_dnode + Demo.env_tail.sizeof_dnode ≤
        u64 (Demo.env_tail.GetDataSize Demo.meta_dnode)) ∧
    ¬ (8 * Demo.env_tail.sizeof_dnode + Demo.env_tail.sizeof_dnode ≤
        u64 (Demo.env_tail.GetDataSize Demo.meta_dnode)) :=
  have h := (C18_record_read_in_range Demo.env_tail
    (Init Demo.env_tail (ObjectSet.new objset_phys_t.zero) Demo.bp).s 7
    (Reachable.Init Demo.bp (Reachable.new objset_phys_t.zero))).1 Demo.meta_dnode rfl
    (by decide)
  ⟨⟨h.2.1, h.2.2.2⟩, by decide⟩

end ZFS
